import Mathlib

/-!
# Chat relay: quota, transcripts and the incremental reveal

A shallow embedding of `server.js` (the `POST /api/chat` handler with its two
in-memory stores) and of the client functions `showTypingEffect` and
`handleOutgoingChat` of `script.js`, followed by the properties proved about
them.

Modelling conventions.

* A JavaScript value that is either absent (`undefined`) or a string is an
  `Option String`; the empty string is falsy, every other string is truthy.
  `req.body` is either `undefined` or an object with such fields.
* `userLimits` and `userSessions` are plain objects used as maps.  They are
  modelled by their own string-keyed properties.  A read of a key that is not an
  own property falls through to `Object.prototype`; `sessionSlot` keeps that
  case apart for `userSessions`, where it changes what the handler does.  For
  `userLimits` every inherited value has no `date` equal to today, so the
  day-reset step overwrites it exactly as it creates a missing record.
* The handler is taken in the sequential model: one request is handled to the
  end before the next one starts.  The clock reading and the upstream result are
  parameters of the handler.
* The display element of the reveal is modelled by its child nodes.  Assigning
  `innerText` replaces them by the rendered text fragment of the assigned
  string; reading `innerText` depends on the stylesheet and on the layout, so
  the getter is part of what each tick reads of the page.
-/

namespace ChatRelay

/-! ## Server: data model -/

/-- The constant `DAILY_LIMIT` of server.js. -/
def DAILY_LIMIT : Nat := 50

/-- One entry of `userLimits`: `{ count, date }`. -/
structure QuotaRecord where
  count : Nat
  date : String
deriving DecidableEq, Repr

/-- The `role` field of a transcript entry. -/
inductive Role where
  | user
  | model
deriving DecidableEq, Repr

/-- One entry of a session transcript: `{ role, parts: [{ text }] }`. -/
structure Turn where
  role : Role
  text : Option String
deriving DecidableEq, Repr

/-- The two module-level stores of server.js. -/
structure ServerState where
  userLimits : String → Option QuotaRecord
  userSessions : String → Option (List Turn)

/-- Both stores as they are when the process starts: `{}` and `{}`. -/
def emptyState : ServerState :=
  { userLimits := fun _ => none, userSessions := fun _ => none }

/-- The three fields line 28 reads of `req.body`, when it is an object. -/
structure RequestBody where
  message : Option String
  userId : Option String
  sessionId : Option String
deriving DecidableEq, Repr

/-- What the handler reads of the request: `req.body`, which is `undefined` when
no JSON body was parsed and an object otherwise, `req.ip` and `req.hostname`. -/
structure Request where
  body : Option RequestBody
  ip : Option String
  hostname : Option String
deriving DecidableEq, Repr

/-- The variable `userMessage` of line 28. -/
def Request.message (req : Request) : Option String :=
  match req.body with
  | some b => b.message
  | none => none

/-- The variable `userId` of line 28. -/
def Request.userId (req : Request) : Option String :=
  match req.body with
  | some b => b.userId
  | none => none

/-- The variable `sessionId` of line 28. -/
def Request.sessionId (req : Request) : Option String :=
  match req.body with
  | some b => b.sessionId
  | none => none

/-- The first candidate's `content.parts[0].text`: either the property chain
cannot be read (a `TypeError` is thrown) or it evaluates to a text, which may be
`undefined`. -/
inductive Candidate where
  | unreadable
  | readable (text : Option String)
deriving DecidableEq, Repr

/-- What the upstream call gives back: `fetch` or `response.json()` throws (or
the parsed value has no properties to read), or a parsed `data` with its
`error` (falsy, or present with an optional `message`) and its `candidates`
(absent, or a list). -/
inductive Upstream where
  | thrown
  | data (error : Option (Option String)) (candidates : Option (List Candidate))
deriving DecidableEq, Repr

/-- The JSON body of a response: `{ error }` or `{ reply }`. -/
inductive Body where
  | error (msg : Option String)
  | reply (text : Option String)
deriving DecidableEq, Repr

/-- An HTTP response: status code and body. -/
structure Response where
  status : Nat
  body : Body
deriving DecidableEq, Repr

/-- The result of handling one request: the response, the stores afterwards, and
the `contents` sent to the upstream model if the handler reached the `fetch`. -/
structure Outcome where
  response : Response
  state : ServerState
  upstream : Option (List Turn)

/-! ## Server: the handler -/

/-- JavaScript truthiness of an absent-or-string value. -/
def truthy : Option String → Bool
  | none => false
  | some v => v != ""

/-- Line 30: both identifiers must be truthy; returns them when they are. -/
def validIds (req : Request) : Option (String × String) :=
  match req.userId, req.sessionId with
  | some u, some sid => if truthy (some u) && truthy (some sid) then some (u, sid) else none
  | _, _ => none

/-- Lines 37-39: create the record of an unseen user. -/
def initLimit (limits : String → Option QuotaRecord) (userId today : String) :
    String → Option QuotaRecord :=
  match limits userId with
  | none => Function.update limits userId (some { count := 0, date := today })
  | some _ => limits

/-- Lines 42-44: replace the record when its date is not today. -/
def resetIfNewDay (limits : String → Option QuotaRecord) (userId today : String) :
    String → Option QuotaRecord :=
  match limits userId with
  | some r =>
      if r.date != today then
        Function.update limits userId (some { count := 0, date := today })
      else limits
  | none => limits

/-- Lines 37-44 together: the day-reset step. -/
def refreshQuota (limits : String → Option QuotaRecord) (userId today : String) :
    String → Option QuotaRecord :=
  resetIfNewDay (initLimit limits userId today) userId today

/-- Line 47: the loopback test. -/
def isLocal (req : Request) : Bool :=
  req.ip == some "::1" || req.ip == some "127.0.0.1" || req.hostname == some "localhost"

/-- The reply text of the 429 response (line 49). -/
def limitReply : String :=
  "Daily limit is exhausted. You can ask a maximum of " ++ toString DAILY_LIMIT ++
    " questions per day."

/-- The property names every plain object inherits from `Object.prototype`. -/
def objectPrototypeKeys : List String :=
  ["constructor", "__defineGetter__", "__defineSetter__", "hasOwnProperty",
   "__lookupGetter__", "__lookupSetter__", "isPrototypeOf", "propertyIsEnumerable",
   "toString", "valueOf", "__proto__", "toLocaleString"]

/-- What `userSessions[sessionId]` evaluates to. -/
inductive Slot where
  | own (transcript : List Turn)
  | inherited
  | undefined
deriving DecidableEq, Repr

/-- The read `userSessions[sessionId]`: an own property, else a property
inherited from `Object.prototype` (truthy, and without a `push` method), else
`undefined`. -/
def sessionSlot (sessions : String → Option (List Turn)) (sessionId : String) : Slot :=
  match sessions sessionId with
  | some t => Slot.own t
  | none => if sessionId ∈ objectPrototypeKeys then Slot.inherited else Slot.undefined

/-- The `catch` block (lines 107-110). -/
def serverError (st : ServerState) (sent : Option (List Turn)) : Outcome :=
  { response := { status := 500, body := Body.error (some "Something went wrong") },
    state := st, upstream := sent }

/-- Lines 63-105: the upstream call and what follows it, for a transcript `t1`
that already ends with the new user turn. -/
def relay (limits : String → Option QuotaRecord) (sessions : String → Option (List Turn))
    (userId sessionId : String) (record : QuotaRecord) (t1 : List Turn) (up : Upstream) :
    Outcome :=
  let st1 : ServerState := { userLimits := limits, userSessions := sessions }
  match up with
  | Upstream.thrown => serverError st1 (some t1)
  | Upstream.data (some msg) _ =>
      { response := { status := 500, body := Body.error msg }, state := st1,
        upstream := some t1 }
  | Upstream.data none none =>
      { response := { status := 500, body := Body.error (some "No response from AI") },
        state := st1, upstream := some t1 }
  | Upstream.data none (some []) =>
      { response := { status := 500, body := Body.error (some "No response from AI") },
        state := st1, upstream := some t1 }
  | Upstream.data none (some (Candidate.unreadable :: _)) => serverError st1 (some t1)
  | Upstream.data none (some (Candidate.readable reply :: _)) =>
      { response := { status := 200, body := Body.reply reply },
        state :=
          { userLimits :=
              Function.update limits userId (some { record with count := record.count + 1 }),
            userSessions :=
              Function.update sessions sessionId
                (some (t1 ++ [{ role := Role.model, text := reply }])) },
        upstream := some t1 }

/-- The handler of `POST /api/chat` (lines 26-111), with the clock reading
`today` and the upstream result `up` as parameters.  The destructuring of line
28 is inside the `try`: when `req.body` is `undefined` it throws into the
`catch` block.  Reading `count` of a missing record would throw as well; after
the day-reset step the record is never missing (`handleChat_valid`). -/
def handleChat (s : ServerState) (req : Request) (today : String) (up : Upstream) : Outcome :=
  match req.body with
  | none => serverError s none
  | some _ =>
      match validIds req with
      | none =>
          { response :=
              { status := 400, body := Body.error (some "User ID and Session ID are required") },
            state := s, upstream := none }
      | some (userId, sessionId) =>
          let limits := refreshQuota s.userLimits userId today
          match limits userId with
          | none => serverError { s with userLimits := limits } none
          | some record =>
              if !isLocal req && decide (record.count ≥ DAILY_LIMIT) then
                { response := { status := 429, body := Body.reply (some limitReply) },
                  state := { s with userLimits := limits }, upstream := none }
              else
                match sessionSlot s.userSessions sessionId with
                | Slot.inherited => serverError { s with userLimits := limits } none
                | Slot.own t =>
                    let t1 := t ++ [{ role := Role.user, text := req.message }]
                    relay limits (Function.update s.userSessions sessionId (some t1))
                      userId sessionId record t1 up
                | Slot.undefined =>
                    let t1 := [] ++ [{ role := Role.user, text := req.message }]
                    relay limits (Function.update s.userSessions sessionId (some t1))
                      userId sessionId record t1 up

/-- One request of a sequential run: the request, the clock reading when it is
handled, and the upstream result it meets. -/
structure Call where
  req : Request
  today : String
  up : Upstream
deriving DecidableEq, Repr

/-- The outcome of one call. -/
def step (s : ServerState) (c : Call) : Outcome :=
  handleChat s c.req c.today c.up

/-- The stores after a sequence of calls handled one at a time. -/
def run (s : ServerState) : List Call → ServerState
  | [] => s
  | c :: cs => run (step s c).state cs

/-- The transcript stored for a session, empty when the session has none. -/
def transcript (s : ServerState) (sessionId : String) : List Turn :=
  (s.userSessions sessionId).getD []

/-- The stored count of a user, zero when the user has no record. -/
def countOf (limits : String → Option QuotaRecord) (userId : String) : Nat :=
  match limits userId with
  | some r => r.count
  | none => 0

/-! ## Server: vocabulary of the properties -/

/-- The reply text the handler extracts when the upstream call succeeds: no
error payload, a non-empty candidate list, and a first candidate whose text can
be read.  In every other case the upstream call has failed. -/
def upstreamReply : Upstream → Option (Option String)
  | Upstream.data none (some (Candidate.readable reply :: _)) => some reply
  | _ => none

/-- The user turn the handler appends for a request (lines 58-61). -/
def userTurn (req : Request) : Turn :=
  { role := Role.user, text := req.message }

/-- The model turn the handler appends for a reply (lines 97-100). -/
def modelTurn (reply : Option String) : Turn :=
  { role := Role.model, text := reply }

/-- The limit check of line 48 lets the request through. -/
def passesQuota (req : Request) (record : QuotaRecord) : Prop :=
  isLocal req = true ∨ record.count < DAILY_LIMIT

/-- Every stored count is at most `DAILY_LIMIT`. -/
def Bounded (limits : String → Option QuotaRecord) : Prop :=
  ∀ u r, limits u = some r → r.count ≤ DAILY_LIMIT

/-- The upstream call has failed: it threw, or it carried an error payload, or
the candidate list was missing or empty, or the first candidate could not be
read. -/
def upstreamFailed (up : Upstream) : Prop :=
  up = Upstream.thrown ∨ (∃ msg cands, up = Upstream.data (some msg) cands) ∨
    up = Upstream.data none none ∨ up = Upstream.data none (some []) ∨
    ∃ rest, up = Upstream.data none (some (Candidate.unreadable :: rest))

/-- The two turns a successful call adds to its session. -/
def exchange (c : Call) : List Turn :=
  [userTurn c.req, modelTurn (upstreamReply c.up).join]

/-- The transcript a run of successful calls builds in a fresh session. -/
def dialogue : List Call → List Turn
  | [] => []
  | c :: cs => exchange c ++ dialogue cs

/-- Every call of the run is answered 200. -/
def AllOk (s : ServerState) : List Call → Prop
  | [] => True
  | c :: cs => (step s c).response.status = 200 ∧ AllOk (step s c).state cs

/-- The roles user, model, ..., user of a context of `2 * n + 1` turns. -/
def alternatingRoles : Nat → List Role
  | 0 => [Role.user]
  | n + 1 => Role.user :: Role.model :: alternatingRoles n

/-! ## Server: sample inputs -/

/-- A request from a remote client. -/
def remoteReq : Request :=
  { body := some { message := some "Hello", userId := some "u", sessionId := some "s" },
    ip := some "203.0.113.7", hostname := some "example.org" }

/-- The same request arriving over the loopback interface. -/
def localReq : Request :=
  { body := some { message := some "Hello", userId := some "u", sessionId := some "s" },
    ip := some "127.0.0.1", hostname := some "localhost" }

/-- A remote request whose identifiers are present and whose message is empty. -/
def emptyTextReq : Request :=
  { body := some { message := some "", userId := some "u", sessionId := some "s" },
    ip := some "203.0.113.7", hostname := some "example.org" }

/-- A remote request without a parsed JSON body. -/
def bodylessReq : Request :=
  { body := none, ip := some "203.0.113.7", hostname := some "example.org" }

/-- A remote request without a userId. -/
def anonymousReq : Request :=
  { body := some { message := some "Hello", userId := none, sessionId := some "s" },
    ip := some "203.0.113.7", hostname := some "example.org" }

/-- A successful upstream result with the reply text "Hi". -/
def okUp : Upstream :=
  Upstream.data none (some [Candidate.readable (some "Hi")])

/-- An upstream result without error whose only candidate has no `content`, as
for a candidate finished for a safety reason. -/
def blockedUp : Upstream :=
  Upstream.data none (some [Candidate.unreadable])

/-- A remote request whose sessionId is a property name that `userSessions`
inherits from `Object.prototype`. -/
def inheritedKeyReq : Request :=
  { body := some { message := some "Hello", userId := some "u", sessionId := some "constructor" },
    ip := some "203.0.113.7", hostname := some "example.org" }

/-- An upstream result with an empty candidate list. -/
def emptyUp : Upstream :=
  Upstream.data none (some [])

/-- Stores in which user "u" has used up the quota of 2024-05-01. -/
def exhaustedState : ServerState :=
  { userLimits := Function.update (fun _ => none) "u" (some ⟨50, "2024-05-01"⟩),
    userSessions := fun _ => none }

/-- The remote request "Hello" of user "u" on 2024-05-01, answered "Hi". -/
def helloCall : Call :=
  { req := remoteReq, today := "2024-05-01", up := okUp }

/-- The first call of the two-call scenario. -/
def firstCall : Call :=
  { req :=
      { body := some { message := some "What is 2+2?", userId := some "u", sessionId := some "s" },
        ip := some "203.0.113.7", hostname := some "example.org" },
    today := "2024-05-01",
    up := Upstream.data none (some [Candidate.readable (some "4")]) }

/-- The second call of the two-call scenario. -/
def secondCall : Call :=
  { req :=
      { body := some { message := some "And 3+3?", userId := some "u", sessionId := some "s" },
        ip := some "203.0.113.7", hostname := some "example.org" },
    today := "2024-05-01",
    up := Upstream.data none (some [Candidate.readable (some "6")]) }

/-- The context of the second call of the two-call scenario. -/
def scenarioContext : List Turn :=
  [{ role := Role.user, text := some "What is 2+2?" },
    { role := Role.model, text := some "4" },
    { role := Role.user, text := some "And 3+3?" }]

/-! ## Client: the incremental reveal (script.js) -/

/-- The call `text.split(' ')` on the characters of a string: the pieces between
consecutive spaces, empty pieces included; the empty string gives one empty
piece. -/
def splitSpace : List Char → List (List Char)
  | [] => [[]]
  | c :: cs =>
      if c = Char.ofNat 32 then [] :: splitSpace cs
      else
        match splitSpace cs with
        | [] => [[c]]
        | w :: ws => (c :: w) :: ws

/-- The array `words` of showTypingEffect (line 43). -/
def splitWords (text : String) : List String :=
  (splitSpace text.data).map String.mk

/-- A child of the display element: a text node or a `br` element. -/
inductive Node where
  | text (data : String)
  | br
deriving DecidableEq, Repr

/-- The text node for the characters collected so far; no node when there are
none. -/
def flushText (cur : List Char) : List Node :=
  if cur.isEmpty then [] else [Node.text (String.mk cur)]

/-- The rendered text fragment the `innerText` setter builds from the assigned
characters: the characters between line breaks become text nodes, and each of
LF, CR and the pair CR LF becomes one `br` element.  `cur` holds the
characters collected since the last line break, and `afterCR` tells that the
previous character was a CR, so that an LF now belongs to the same line
break. -/
def renderedTextFragment : Bool → List Char → List Char → List Node
  | _, cur, [] => flushText cur
  | afterCR, cur, c :: cs =>
      if c = Char.ofNat 10 then
        if afterCR then renderedTextFragment false cur cs
        else flushText cur ++ Node.br :: renderedTextFragment false [] cs
      else if c = Char.ofNat 13 then
        flushText cur ++ Node.br :: renderedTextFragment true [] cs
      else renderedTextFragment false (cur ++ [c]) cs

/-- The assignment `textElement.innerText = value`: the children of the element
are replaced by the rendered text fragment of the value. -/
def setInnerText (value : String) : List Node :=
  renderedTextFragment false [] value.data

/-- The characters a node stands for when it is rendered with its white space
preserved: the data of a text node, one LF for a `br` element. -/
def nodeChars : Node → List Char
  | Node.text data => data.data
  | Node.br => [Char.ofNat 10]

/-- The `innerText` getter of an element that is rendered with its white space
preserved (`white-space: pre-wrap`). -/
def renderedText (children : List Node) : String :=
  String.mk (children.map nodeChars).flatten

/-- The characters of a node in `textContent`: a `br` element has none. -/
def nodeData : Node → List Char
  | Node.text data => data.data
  | Node.br => []

/-- The `innerText` getter of an element that is not rendered, which is its
`textContent`. -/
def textContent (children : List Node) : String :=
  String.mk (children.map nodeData).flatten

/-- What one timer tick reads of the page: the layout numbers of lines 54-55
and 74, and the `innerText` getter of the display element as the stylesheet
(which is not part of the sources) and the layout make it at that moment. -/
structure PageView where
  outgoingOffsetTop : Int
  containerOffsetTop : Int
  scrollHeight : Int
  clientHeight : Int
  innerText : List Node → String

/-- The variables showTypingEffect works on: its locals `words` and
`currentWordIndex`, whether `outgoingMessageDiv` was found, whether the
interval is still registered, the children of the display element, the value
last assigned to `chatContainer.scrollTop`, and the global flag. -/
structure Reveal where
  words : List String
  currentWordIndex : Nat
  hasOutgoing : Bool
  intervalActive : Bool
  children : List Node
  scrollTop : Int
  isResponseGenerating : Bool
deriving DecidableEq, Repr

/-- The body of showTypingEffect up to the registration of the interval (lines
43-49), for a display element with the given children. -/
def showTypingEffect (text : String) (children : List Node) (hasOutgoing : Bool)
    (scrollTop : Int) (isResponseGenerating : Bool) : Reveal :=
  { words := splitWords text, currentWordIndex := 0, hasOutgoing := hasOutgoing,
    intervalActive := true, children := children, scrollTop := scrollTop,
    isResponseGenerating := isResponseGenerating }

/-- The scroll position a tick assigns (lines 53-75). -/
def targetScroll (hasOutgoing : Bool) (p : PageView) : Int :=
  if hasOutgoing then
    min (p.scrollHeight - p.clientHeight) (p.outgoingOffsetTop - p.containerOffsetTop)
  else p.scrollHeight

/-- One run of the interval callback (lines 49-81).  Line 50 reads `innerText`
through the getter, appends the separator and the next word, and assigns the
result through the setter.  A cleared interval does not run. -/
def tick (r : Reveal) (p : PageView) : Reveal :=
  if r.intervalActive then
    let shown :=
      p.innerText r.children ++
        ((if r.currentWordIndex = 0 then "" else " ") ++
          r.words.getD r.currentWordIndex "undefined")
    let next := r.currentWordIndex + 1
    if next = r.words.length then
      { r with children := setInnerText shown, currentWordIndex := next,
               scrollTop := targetScroll r.hasOutgoing p,
               intervalActive := false, isResponseGenerating := false }
    else
      { r with children := setInnerText shown, currentWordIndex := next,
               scrollTop := targetScroll r.hasOutgoing p }
  else r

/-- The reveal after the ticks whose page views are listed. -/
def runTicks (r : Reveal) (views : List PageView) : Reveal :=
  views.foldl tick r

/-- The first `k` words of a reply joined by single spaces. -/
def shownWords (text : String) (k : Nat) : String :=
  String.intercalate " " ((splitWords text).take k)

/-- The getter `read` gives back each partial text of the reveal of `text` as
it was assigned: for every `k` up to the number of words, reading the children
that assigning the first `k` words builds returns those words. -/
def ReadsBack (read : List Node → String) (text : String) : Prop :=
  ∀ k, k ≤ (splitWords text).length → read (setInnerText (shownWords text k)) = shownWords text k

/-- A page view of an element rendered with its white space preserved. -/
def renderedView : PageView :=
  { outgoingOffsetTop := 0, containerOffsetTop := 0, scrollHeight := 0, clientHeight := 0,
    innerText := renderedText }

/-- A page view of an element that is not rendered. -/
def hiddenView : PageView :=
  { outgoingOffsetTop := 0, containerOffsetTop := 0, scrollHeight := 0, clientHeight := 0,
    innerText := textContent }

/-! ## Client: submitting a message (script.js) -/

/-- The constant `MAX_WORDS` of script.js. -/
def MAX_WORDS : Nat := 100

/-- The characters `trim` removes and `\s` matches: the white space and line
terminator code points of ECMAScript. -/
def isWhiteSpace (c : Char) : Bool :=
  [9, 10, 11, 12, 13, 32, 160, 5760, 8192, 8193, 8194, 8195, 8196, 8197, 8198, 8199, 8200,
    8201, 8202, 8232, 8233, 8239, 8287, 12288, 65279].contains c.toNat

/-- The method `trim` of a string. -/
def trim (s : String) : String :=
  String.mk ((s.data.dropWhile isWhiteSpace).reverse.dropWhile isWhiteSpace).reverse

/-- The call `split(/\s+/)` on the characters of a string: the pieces between
maximal runs of white space; `afterSpace` tells that the previous character
belonged to the current run. -/
def splitRuns : Bool → List Char → List (List Char)
  | _, [] => [[]]
  | afterSpace, c :: cs =>
      if isWhiteSpace c then
        if afterSpace then splitRuns true cs else [] :: splitRuns true cs
      else
        match splitRuns false cs with
        | [] => [[c]]
        | w :: ws => (c :: w) :: ws

/-- The function countWords (lines 17-19). -/
def countWords (text : String) : Nat :=
  ((splitRuns false (trim text).data).filter (fun w => decide (w.length > 0))).length

/-- A child of the chat list: its class (outgoing or incoming), its text, and
whether it still shows the loading indicator or carries the error class. -/
structure ChatMessage where
  outgoing : Bool
  text : String
  loading : Bool
  error : Bool
deriving DecidableEq, Repr

/-- The state of the page script: the globals `userMessage` and
`isResponseGenerating`, the value of the input box and the value a form reset
gives it, the text of the word counter, the children of the chat list, the
numbers of pending `setTimeout(showLoadingAnimation, 500)` and
`requestAnimationFrame` callbacks, and the `message` field of every request
sent so far. -/
structure Client where
  userMessage : Option String
  isResponseGenerating : Bool
  inputValue : String
  inputDefault : String
  wordCounter : String
  chatList : List ChatMessage
  pendingTimeouts : Nat
  pendingFrames : Nat
  sent : List (Option String)
deriving DecidableEq, Repr

/-- The function handleOutgoingChat (lines 152-180). -/
def handleOutgoingChat (c : Client) : Client :=
  let userMessage := trim c.inputValue
  let c1 := { c with userMessage := some userMessage }
  if userMessage == "" || c.isResponseGenerating then c1
  else if countWords userMessage > MAX_WORDS then c1
  else
    { c1 with
      isResponseGenerating := true,
      chatList :=
        c.chatList ++ [{ outgoing := true, text := userMessage, loading := false, error := false }],
      inputValue := c.inputDefault,
      wordCounter := "0 / " ++ toString MAX_WORDS,
      pendingFrames := c.pendingFrames + 1,
      pendingTimeouts := c.pendingTimeouts + 1 }

/-- The timer callback showLoadingAnimation (lines 131-150) together with the
part of generateAPIResponse that runs at once (lines 97-110): the incoming
bubble is appended and the request is sent with the current `userMessage`. -/
def showLoadingAnimation (c : Client) : Client :=
  { c with
    chatList := c.chatList ++ [{ outgoing := false, text := "", loading := true, error := false }],
    pendingFrames := c.pendingFrames + 1,
    pendingTimeouts := c.pendingTimeouts - 1,
    sent := c.sent ++ [c.userMessage] }

/-- The `catch` block of generateAPIResponse (lines 123-128), which works on the
incoming bubble, the last child of the chat list. -/
def fetchFailed (c : Client) (message : String) : Client :=
  { c with
    isResponseGenerating := false,
    chatList :=
      match c.chatList.reverse with
      | [] => []
      | m :: rest => (({ m with text := message, loading := false, error := true }) :: rest).reverse }

/-- The input event listener (lines 183-209), after the browser has put the
typed text into the box. -/
def onInput (c : Client) (value : String) : Client :=
  { c with
    inputValue := value,
    wordCounter :=
      if countWords value > MAX_WORDS then
        "Maximum " ++ toString MAX_WORDS ++ " words allowed"
      else toString (countWords value) ++ " / " ++ toString MAX_WORDS }

/-- The page after load with a question typed into the box. -/
def typedClient : Client :=
  { userMessage := none, isResponseGenerating := false, inputValue := "What is 2+2?",
    inputDefault := "", wordCounter := "3 / 100", chatList := [], pendingTimeouts := 0,
    pendingFrames := 0, sent := [] }

/-! ## Server: the day-reset step -/

theorem initLimit_other (limits : String → Option QuotaRecord) (u v today : String)
    (h : v ≠ u) : initLimit limits u today v = limits v := by
  unfold initLimit
  cases limits u with
  | none => exact Function.update_noteq h _ _
  | some r => rfl

theorem resetIfNewDay_other (limits : String → Option QuotaRecord) (u v today : String)
    (h : v ≠ u) : resetIfNewDay limits u today v = limits v := by
  unfold resetIfNewDay
  cases limits u with
  | none => rfl
  | some r =>
      by_cases hd : (r.date != today) = true
      · simp only [hd, if_true]
        exact Function.update_noteq h _ _
      · simp only [hd]
        rfl

/-- The day-reset step leaves the records of all other users alone. -/
theorem refreshQuota_other (limits : String → Option QuotaRecord) (u v today : String)
    (h : v ≠ u) : refreshQuota limits u today v = limits v := by
  unfold refreshQuota
  rw [resetIfNewDay_other _ _ _ _ h, initLimit_other _ _ _ _ h]

/-- An unseen user gets the record `{ count: 0, date: today }`. -/
theorem refreshQuota_unseen (limits : String → Option QuotaRecord) (u today : String)
    (h : limits u = none) :
    refreshQuota limits u today = Function.update limits u (some ⟨0, today⟩) := by
  unfold refreshQuota initLimit
  rw [h]
  unfold resetIfNewDay
  simp

/-- A record of an earlier day is replaced by `{ count: 0, date: today }`. -/
theorem refreshQuota_stale (limits : String → Option QuotaRecord) (u today : String)
    (r : QuotaRecord) (h : limits u = some r) (hd : r.date ≠ today) :
    refreshQuota limits u today = Function.update limits u (some ⟨0, today⟩) := by
  unfold refreshQuota initLimit
  rw [h]
  unfold resetIfNewDay
  simp [h, hd]

/-- A record of today is left as it is, and so is the whole store. -/
theorem refreshQuota_fresh (limits : String → Option QuotaRecord) (u today : String)
    (r : QuotaRecord) (h : limits u = some r) (hd : r.date = today) :
    refreshQuota limits u today = limits := by
  unfold refreshQuota initLimit
  rw [h]
  unfold resetIfNewDay
  simp [h, hd]

/-- After the day-reset step the user has a record dated today, whose count is
the stored count if the stored record was dated today and zero otherwise. -/
theorem refreshQuota_self (limits : String → Option QuotaRecord) (u today : String) :
    ∃ r, refreshQuota limits u today u = some r ∧ r.date = today ∧
      (r.count = 0 ∨ limits u = some r) := by
  cases h : limits u with
  | none =>
      rw [refreshQuota_unseen _ _ _ h]
      exact ⟨⟨0, today⟩, by simp, rfl, Or.inl rfl⟩
  | some r =>
      by_cases hd : r.date = today
      · rw [refreshQuota_fresh _ _ _ r h hd]
        exact ⟨r, h, hd, Or.inr rfl⟩
      · rw [refreshQuota_stale _ _ _ r h hd]
        exact ⟨⟨0, today⟩, by simp, rfl, Or.inl rfl⟩

/-! ## Server: the shape of an outcome -/

/-- The outcome of `relay` when the upstream call succeeds. -/
theorem relay_success (limits : String → Option QuotaRecord)
    (sessions : String → Option (List Turn)) (u sid : String) (record : QuotaRecord)
    (t1 : List Turn) (up : Upstream) (reply : Option String)
    (h : upstreamReply up = some reply) :
    relay limits sessions u sid record t1 up =
      { response := { status := 200, body := Body.reply reply },
        state :=
          { userLimits :=
              Function.update limits u (some { record with count := record.count + 1 }),
            userSessions :=
              Function.update sessions sid (some (t1 ++ [{ role := Role.model, text := reply }])) },
        upstream := some t1 } := by
  unfold upstreamReply at h
  split at h
  · cases h
    rfl
  · cases h

/-- The outcome of `relay` when the upstream call fails: a 500 response, and the
stores as they were handed in. -/
theorem relay_failure (limits : String → Option QuotaRecord)
    (sessions : String → Option (List Turn)) (u sid : String) (record : QuotaRecord)
    (t1 : List Turn) (up : Upstream) (h : upstreamReply up = none) :
    (relay limits sessions u sid record t1 up).response.status = 500 ∧
      (relay limits sessions u sid record t1 up).state =
        { userLimits := limits, userSessions := sessions } ∧
      (relay limits sessions u sid record t1 up).upstream = some t1 := by
  unfold relay
  split <;> first
    | exact ⟨rfl, rfl, rfl⟩
    | (simp [upstreamReply] at h)

/-- A request that passes the validation of line 30 has a parsed body. -/
theorem validIds_body (req : Request) (u sid : String) (hv : validIds req = some (u, sid)) :
    ∃ b, req.body = some b := by
  cases hb : req.body with
  | some b => exact ⟨b, rfl⟩
  | none => simp [validIds, Request.userId, hb] at hv

/-- The handler on a request whose identifiers are present: the branch on a
missing record is never taken, and what remains is the limit check followed by
the transcript update and the relay. -/
theorem handleChat_valid (s : ServerState) (req : Request) (today : String) (up : Upstream)
    (u sid : String) (hv : validIds req = some (u, sid)) :
    ∃ record, refreshQuota s.userLimits u today u = some record ∧ record.date = today ∧
      (record.count = 0 ∨ s.userLimits u = some record) ∧
      handleChat s req today up =
        if !isLocal req && decide (record.count ≥ DAILY_LIMIT) then
          { response := { status := 429, body := Body.reply (some limitReply) },
            state := { s with userLimits := refreshQuota s.userLimits u today },
            upstream := none }
        else
          match sessionSlot s.userSessions sid with
          | Slot.inherited =>
              serverError { s with userLimits := refreshQuota s.userLimits u today } none
          | Slot.own t =>
              relay (refreshQuota s.userLimits u today)
                (Function.update s.userSessions sid
                  (some (t ++ [{ role := Role.user, text := req.message }])))
                u sid record (t ++ [{ role := Role.user, text := req.message }]) up
          | Slot.undefined =>
              relay (refreshQuota s.userLimits u today)
                (Function.update s.userSessions sid
                  (some ([] ++ [{ role := Role.user, text := req.message }])))
                u sid record ([] ++ [{ role := Role.user, text := req.message }]) up := by
  obtain ⟨record, hr, hd, hc⟩ := refreshQuota_self s.userLimits u today
  refine ⟨record, hr, hd, hc, ?_⟩
  obtain ⟨b, hb⟩ := validIds_body req u sid hv
  unfold handleChat
  simp only [hb, hv, hr]

theorem sessionSlot_transcript (s : ServerState) (sid : String) :
    (∃ t, sessionSlot s.userSessions sid = Slot.own t ∧ transcript s sid = t) ∨
      (sessionSlot s.userSessions sid = Slot.inherited ∧ s.userSessions sid = none) ∨
      (sessionSlot s.userSessions sid = Slot.undefined ∧ transcript s sid = [] ∧
        s.userSessions sid = none) := by
  unfold sessionSlot transcript
  cases h : s.userSessions sid with
  | some t => exact Or.inl ⟨t, rfl, rfl⟩
  | none =>
      by_cases hk : sid ∈ objectPrototypeKeys
      · exact Or.inr (Or.inl ⟨by simp only [hk, if_true], rfl⟩)
      · exact Or.inr (Or.inr ⟨by simp only [hk, if_false], rfl, rfl⟩)

/-- The five ways a request can end: stopped before the stores are read (500
from the `catch` block when `req.body` is `undefined`, 400 from the validation
otherwise), denied by the limit check (429), stopped by a session key that
`userSessions` inherits (500, the `push` throws), relayed with a failed
upstream call (500), relayed with success (200).  In each case the response,
both stores and the context sent upstream are given in full. -/
theorem handleChat_cases (s : ServerState) (req : Request) (today : String) (up : Upstream) :
    (validIds req = none ∧
        (handleChat s req today up).response =
          (if req.body.isSome then
            { status := 400, body := Body.error (some "User ID and Session ID are required") }
          else { status := 500, body := Body.error (some "Something went wrong") }) ∧
        (handleChat s req today up).state = s ∧
        (handleChat s req today up).upstream = none) ∨
    ∃ u sid record, validIds req = some (u, sid) ∧
      refreshQuota s.userLimits u today u = some record ∧ record.date = today ∧
      (record.count = 0 ∨ s.userLimits u = some record) ∧
      ((isLocal req = false ∧ record.count ≥ DAILY_LIMIT ∧
          (handleChat s req today up).response =
            { status := 429, body := Body.reply (some limitReply) } ∧
          (handleChat s req today up).state =
            { s with userLimits := refreshQuota s.userLimits u today } ∧
          (handleChat s req today up).upstream = none) ∨
       (passesQuota req record ∧ sessionSlot s.userSessions sid = Slot.inherited ∧
          (handleChat s req today up).response =
            { status := 500, body := Body.error (some "Something went wrong") } ∧
          (handleChat s req today up).state =
            { s with userLimits := refreshQuota s.userLimits u today } ∧
          (handleChat s req today up).upstream = none) ∨
       (passesQuota req record ∧ sessionSlot s.userSessions sid ≠ Slot.inherited ∧
          upstreamReply up = none ∧
          (handleChat s req today up).response.status = 500 ∧
          (handleChat s req today up).state =
            { userLimits := refreshQuota s.userLimits u today,
              userSessions :=
                Function.update s.userSessions sid (some (transcript s sid ++ [userTurn req])) } ∧
          (handleChat s req today up).upstream = some (transcript s sid ++ [userTurn req])) ∨
       (∃ reply, passesQuota req record ∧ sessionSlot s.userSessions sid ≠ Slot.inherited ∧
          upstreamReply up = some reply ∧
          (handleChat s req today up).response =
            { status := 200, body := Body.reply reply } ∧
          (handleChat s req today up).state =
            { userLimits :=
                Function.update (refreshQuota s.userLimits u today) u
                  (some { record with count := record.count + 1 }),
              userSessions :=
                Function.update s.userSessions sid
                  (some (transcript s sid ++ [userTurn req, modelTurn reply])) } ∧
          (handleChat s req today up).upstream = some (transcript s sid ++ [userTurn req]))) := by
  cases hv : validIds req with
  | none =>
      left
      unfold handleChat
      cases hb : req.body with
      | none => exact ⟨rfl, rfl, rfl, rfl⟩
      | some b =>
          simp only [hv]
          refine ⟨?_, ?_, ?_, ?_⟩ <;> trivial
  | some p =>
      obtain ⟨u, sid⟩ := p
      right
      obtain ⟨record, hr, hd, hc, heq⟩ := handleChat_valid s req today up u sid hv
      refine ⟨u, sid, record, rfl, hr, hd, hc, ?_⟩
      rw [heq]
      by_cases hq : (!isLocal req && decide (record.count ≥ DAILY_LIMIT)) = true
      · left
        simp only [hq, if_true]
        simp only [Bool.and_eq_true, Bool.not_eq_true', decide_eq_true_eq] at hq
        refine ⟨hq.1, hq.2, ?_, ?_, ?_⟩ <;> trivial
      · right
        simp only [hq]
        have hpass : passesQuota req record := by
          unfold passesQuota
          simp only [Bool.and_eq_true, Bool.not_eq_true', decide_eq_true_eq, not_and,
            not_le] at hq
          cases hl : isLocal req with
          | true => exact Or.inl rfl
          | false => exact Or.inr (hq hl)
        have key : ∀ t : List Turn, sessionSlot s.userSessions sid ≠ Slot.inherited →
            transcript s sid = t →
            ((upstreamReply up = none ∧
              (relay (refreshQuota s.userLimits u today)
                (Function.update s.userSessions sid (some (t ++ [userTurn req])))
                u sid record (t ++ [userTurn req]) up).response.status = 500 ∧
              (relay (refreshQuota s.userLimits u today)
                (Function.update s.userSessions sid (some (t ++ [userTurn req])))
                u sid record (t ++ [userTurn req]) up).state =
                { userLimits := refreshQuota s.userLimits u today,
                  userSessions :=
                    Function.update s.userSessions sid
                      (some (transcript s sid ++ [userTurn req])) } ∧
              (relay (refreshQuota s.userLimits u today)
                (Function.update s.userSessions sid (some (t ++ [userTurn req])))
                u sid record (t ++ [userTurn req]) up).upstream =
                some (transcript s sid ++ [userTurn req])) ∨
            (∃ reply, upstreamReply up = some reply ∧
              (relay (refreshQuota s.userLimits u today)
                (Function.update s.userSessions sid (some (t ++ [userTurn req])))
                u sid record (t ++ [userTurn req]) up).response =
                { status := 200, body := Body.reply reply } ∧
              (relay (refreshQuota s.userLimits u today)
                (Function.update s.userSessions sid (some (t ++ [userTurn req])))
                u sid record (t ++ [userTurn req]) up).state =
                { userLimits :=
                    Function.update (refreshQuota s.userLimits u today) u
                      (some { record with count := record.count + 1 }),
                  userSessions :=
                    Function.update s.userSessions sid
                      (some (transcript s sid ++ [userTurn req, modelTurn reply])) } ∧
              (relay (refreshQuota s.userLimits u today)
                (Function.update s.userSessions sid (some (t ++ [userTurn req])))
                u sid record (t ++ [userTurn req]) up).upstream =
                some (transcript s sid ++ [userTurn req]))) := by
          intro t _ ht
          cases hup : upstreamReply up with
          | none =>
              left
              obtain ⟨h1, h2, h3⟩ := relay_failure (refreshQuota s.userLimits u today)
                (Function.update s.userSessions sid (some (t ++ [userTurn req])))
                u sid record (t ++ [userTurn req]) up hup
              rw [ht]
              exact ⟨by trivial, h1, h2, h3⟩
          | some reply =>
              right
              rw [relay_success _ _ _ _ _ _ _ reply hup, ht]
              refine ⟨reply, rfl, rfl, ?_, rfl⟩
              simp only [Function.update_idem, List.append_assoc, List.singleton_append,
                modelTurn]
        rcases sessionSlot_transcript s sid with ⟨t, hs, ht⟩ | ⟨hs, _⟩ | ⟨hs, ht, _⟩
        · have hne : sessionSlot s.userSessions sid ≠ Slot.inherited := by
            rw [hs]; exact fun h => by cases h
          right
          rcases key t hne ht with ⟨h0, h1, h2, h3⟩ | ⟨reply, h0, h1, h2, h3⟩
          · left
            simp only [hs]
            exact ⟨hpass, by rw [← hs]; exact hne, h0, h1, h2, h3⟩
          · right
            simp only [hs]
            exact ⟨reply, hpass, by rw [← hs]; exact hne, h0, h1, h2, h3⟩
        · left
          simp only [hs]
          refine ⟨hpass, ?_, ?_, ?_, ?_⟩ <;> trivial
        · have hne : sessionSlot s.userSessions sid ≠ Slot.inherited := by
            rw [hs]; exact fun h => by cases h
          right
          rcases key [] hne ht with ⟨h0, h1, h2, h3⟩ | ⟨reply, h0, h1, h2, h3⟩
          · left
            simp only [hs]
            exact ⟨hpass, by rw [← hs]; exact hne, h0, h1, h2, h3⟩
          · right
            simp only [hs]
            exact ⟨reply, hpass, by rw [← hs]; exact hne, h0, h1, h2, h3⟩

/-! ## Server: the quota bound -/

theorem refreshQuota_bounded (limits : String → Option QuotaRecord) (u today : String)
    (h : Bounded limits) : Bounded (refreshQuota limits u today) := by
  intro v r hv
  by_cases hvu : v = u
  · subst hvu
    obtain ⟨r0, hr0, _, hc⟩ := refreshQuota_self limits v today
    rw [hr0] at hv
    cases hv
    rcases hc with hc | hc
    · rw [hc]; exact Nat.zero_le _
    · exact h v r hc
  · rw [refreshQuota_other _ _ _ _ hvu] at hv
    exact h v r hv

theorem relay_bounded (limits : String → Option QuotaRecord)
    (sessions : String → Option (List Turn)) (u sid : String) (record : QuotaRecord)
    (t1 : List Turn) (up : Upstream) (h : Bounded limits)
    (hlt : record.count < DAILY_LIMIT) :
    Bounded (relay limits sessions u sid record t1 up).state.userLimits := by
  cases hup : upstreamReply up with
  | none =>
      rw [(relay_failure limits sessions u sid record t1 up hup).2.1]
      exact h
  | some reply =>
      rw [relay_success limits sessions u sid record t1 up reply hup]
      intro v r hv
      by_cases hvu : v = u
      · subst hvu
        simp only [Function.update_same, Option.some.injEq] at hv
        rw [← hv]
        exact hlt
      · simp only [Function.update_noteq hvu] at hv
        exact h v r hv

/-- One request that is not loopback-exempt keeps every stored count within the
daily limit. -/
theorem handleChat_bounded (s : ServerState) (req : Request) (today : String) (up : Upstream)
    (h : Bounded s.userLimits) (hloc : isLocal req = false) :
    Bounded (handleChat s req today up).state.userLimits := by
  cases hv : validIds req with
  | none =>
      rcases handleChat_cases s req today up with ⟨_, _, hst, _⟩ | ⟨u, sid, _, h0, _⟩
      · rw [hst]
        exact h
      · rw [hv] at h0
        cases h0
  | some p =>
      obtain ⟨u, sid⟩ := p
      obtain ⟨record, _, _, _, heq⟩ := handleChat_valid s req today up u sid hv
      have hb := refreshQuota_bounded s.userLimits u today h
      rw [heq]
      by_cases hc : record.count ≥ DAILY_LIMIT
      · simp only [hloc, hc, Bool.not_false, decide_True, Bool.and_self, if_true]
        exact hb
      · have hlt : record.count < DAILY_LIMIT := Nat.lt_of_not_le hc
        simp only [hloc, hc, Bool.not_false, decide_False, Bool.and_false, if_false]
        cases sessionSlot s.userSessions sid with
        | inherited => exact hb
        | own t => exact relay_bounded _ _ _ _ _ _ _ hb hlt
        | undefined => exact relay_bounded _ _ _ _ _ _ _ hb hlt

theorem run_bounded (calls : List Call) (s : ServerState) (h : Bounded s.userLimits)
    (hloc : ∀ c ∈ calls, isLocal c.req = false) : Bounded (run s calls).userLimits := by
  induction calls generalizing s with
  | nil => exact h
  | cons c cs ih =>
      apply ih
      · exact handleChat_bounded s c.req c.today c.up h (hloc c (List.mem_cons_self c cs))
      · intro d hd
        exact hloc d (List.mem_cons_of_mem c hd)

/-- C1.  In the sequential model, starting from empty stores, after each request
of a finite sequence of requests none of which is loopback-exempt, whatever the
upstream results and the clock readings, every stored quota count is at most
`DAILY_LIMIT`, which is 50. -/
theorem quota_never_exceeds_limit (calls : List Call)
    (hloc : ∀ c ∈ calls, isLocal c.req = false) (k : Nat) (u : String) (r : QuotaRecord)
    (h : (run emptyState (calls.take k)).userLimits u = some r) :
    r.count ≤ DAILY_LIMIT ∧ DAILY_LIMIT = 50 := by
  refine ⟨?_, rfl⟩
  refine run_bounded (calls.take k) emptyState ?_ ?_ u r h
  · intro v r0 hv
    cases hv
  · intro c hc
    exact hloc c (List.mem_of_mem_take hc)

/-! ## Server: validation and the limit check -/

/-- The validation of line 30 passes exactly when both identifiers are present
and non-empty. -/
theorem validIds_eq_some_iff (req : Request) (u sid : String) :
    validIds req = some (u, sid) ↔
      req.userId = some u ∧ u ≠ "" ∧ req.sessionId = some sid ∧ sid ≠ "" := by
  unfold validIds truthy
  cases h1 : req.userId <;> cases h2 : req.sessionId <;> simp
  rename_i a b
  constructor
  · rintro ⟨⟨ha, hb⟩, rfl, rfl⟩
    exact ⟨rfl, ha, rfl, hb⟩
  · rintro ⟨rfl, ha, rfl, hb⟩
    exact ⟨⟨ha, hb⟩, rfl, rfl⟩

/-- The validation of line 30 fails exactly when an identifier is falsy. -/
theorem validIds_eq_none_iff (req : Request) :
    validIds req = none ↔ truthy req.userId = false ∨ truthy req.sessionId = false := by
  unfold validIds truthy
  cases h1 : req.userId <;> cases h2 : req.sessionId <;> simp
  rename_i a b
  constructor
  · intro h
    by_cases ha : a = ""
    · exact Or.inl ha
    · exact Or.inr (h ha)
  · rintro (ha | hb) h
    · exact absurd ha h
    · exact hb

/-- The count a request leaves behind, for a request that passed validation:
the refreshed count plus one after a 200 response, the refreshed count after any
other response; a 429 is only given to a request that is not loopback-exempt and
whose refreshed count has reached the limit; other users are not touched. -/
theorem handleChat_count (s : ServerState) (req : Request) (today : String) (up : Upstream)
    (u sid : String) (hv : validIds req = some (u, sid)) :
    ∃ record, refreshQuota s.userLimits u today u = some record ∧ record.date = today ∧
      ((handleChat s req today up).response.status = 429 →
        isLocal req = false ∧ record.count ≥ DAILY_LIMIT) ∧
      ((handleChat s req today up).response.status = 200 →
        passesQuota req record ∧
        (handleChat s req today up).state.userLimits u =
          some { record with count := record.count + 1 }) ∧
      ((handleChat s req today up).response.status ≠ 200 →
        (handleChat s req today up).state.userLimits = refreshQuota s.userLimits u today) ∧
      (∀ v, v ≠ u → (handleChat s req today up).state.userLimits v = s.userLimits v) := by
  rcases handleChat_cases s req today up with ⟨h0, _⟩ | ⟨u1, sid1, record, h0, hr, hd, _, hc⟩
  · rw [hv] at h0
    cases h0
  · rw [hv] at h0
    cases h0
    refine ⟨record, hr, hd, ?_⟩
    rcases hc with ⟨hl, hge, hresp, hst, _⟩ | ⟨_, _, hresp, hst, _⟩ |
      ⟨_, _, _, hresp, hst, _⟩ | ⟨reply, hp, _, _, hresp, hst, _⟩
    · rw [hresp, hst]
      refine ⟨fun _ => ⟨hl, hge⟩, fun h => absurd h (by decide), fun _ => rfl, ?_⟩
      intro v hvu
      exact refreshQuota_other _ _ _ _ hvu
    · rw [hresp, hst]
      refine ⟨fun h => absurd h (by decide), fun h => absurd h (by decide), fun _ => rfl, ?_⟩
      intro v hvu
      exact refreshQuota_other _ _ _ _ hvu
    · rw [hresp, hst]
      refine ⟨fun h => absurd h (by decide), fun h => absurd h (by decide), fun _ => rfl, ?_⟩
      intro v hvu
      exact refreshQuota_other _ _ _ _ hvu
    · rw [hresp, hst]
      refine ⟨fun h => absurd h (by simp), fun _ => ⟨hp, ?_⟩, fun h => absurd rfl h, ?_⟩
      · simp only [Function.update_same]
      · intro v hvu
        simp only [Function.update_noteq hvu]
        exact refreshQuota_other _ _ _ _ hvu

/-- The handler extracts no reply exactly when the upstream call has failed. -/
theorem upstreamReply_eq_none_iff (up : Upstream) :
    upstreamReply up = none ↔ upstreamFailed up := by
  unfold upstreamFailed
  constructor
  · intro h
    match up, h with
    | Upstream.thrown, _ => exact Or.inl rfl
    | Upstream.data (some msg) cands, _ => exact Or.inr (Or.inl ⟨msg, cands, rfl⟩)
    | Upstream.data none none, _ => exact Or.inr (Or.inr (Or.inl rfl))
    | Upstream.data none (some []), _ => exact Or.inr (Or.inr (Or.inr (Or.inl rfl)))
    | Upstream.data none (some (Candidate.unreadable :: rest)), _ =>
        exact Or.inr (Or.inr (Or.inr (Or.inr ⟨rest, rfl⟩)))
    | Upstream.data none (some (Candidate.readable reply :: rest)), h =>
        simp [upstreamReply] at h
  · rintro (rfl | ⟨msg, cands, rfl⟩ | rfl | rfl | ⟨rest, rfl⟩) <;> rfl

/-! ## Server: the 51st message of the day -/

/-- One more successful "Hello" raises a count below the limit by one. -/
theorem helloCall_counts (s : ServerState) (k : Nat) (hk : k < DAILY_LIMIT)
    (h : s.userLimits "u" = some ⟨k, "2024-05-01"⟩) :
    (step s helloCall).state.userLimits "u" = some ⟨k + 1, "2024-05-01"⟩ := by
  have hfresh := refreshQuota_fresh s.userLimits "u" "2024-05-01" _ h rfl
  unfold step
  rcases handleChat_cases s helloCall.req helloCall.today helloCall.up with
    ⟨h0, _⟩ | ⟨u1, sid1, record, h0, hrec, _, _, hcase⟩
  · exact absurd h0 (by decide)
  · have hv : validIds helloCall.req = some ("u", "s") := by decide
    rw [hv] at h0
    cases h0
    have htoday : helloCall.today = "2024-05-01" := rfl
    rw [htoday] at hrec hcase ⊢
    rw [hfresh, h] at hrec
    cases hrec
    rcases hcase with ⟨_, hge, _⟩ | ⟨_, hs, _⟩ | ⟨_, _, hfail, _⟩ | ⟨reply, _, _, _, _, hst, _⟩
    · exact absurd hge (Nat.not_le_of_lt hk)
    · unfold sessionSlot at hs
      cases hT : s.userSessions "s" with
      | none =>
          rw [hT] at hs
          exact absurd hs (by decide)
      | some t =>
          rw [hT] at hs
          cases hs
    · exact absurd hfail (by decide)
    · rw [hst]
      simp only [Function.update_same]

theorem helloCall_repeated (n : Nat) (s : ServerState) (k : Nat) (hk : k + n ≤ DAILY_LIMIT)
    (h : s.userLimits "u" = some ⟨k, "2024-05-01"⟩) :
    (run s (List.replicate n helloCall)).userLimits "u" = some ⟨k + n, "2024-05-01"⟩ := by
  induction n generalizing s k with
  | zero => exact h
  | succ n ih =>
      rw [List.replicate_succ, run]
      have h1 := helloCall_counts s k (by omega) h
      have h2 := ih (step s helloCall).state (k + 1) (by omega) h1
      rw [h2, Nat.add_assoc, Nat.add_comm 1 n]

/-- After fifty successful messages of one day the stored count is fifty. -/
theorem fifty_messages_counted :
    (run emptyState (List.replicate 50 helloCall)).userLimits "u" =
      some ⟨50, "2024-05-01"⟩ := by
  have h1 : (step emptyState helloCall).state.userLimits "u" = some ⟨1, "2024-05-01"⟩ := by
    decide
  have h2 := helloCall_repeated 49 (step emptyState helloCall).state 1 (by decide) h1
  have h3 : List.replicate 50 helloCall = helloCall :: List.replicate 49 helloCall := rfl
  rw [h3, run, h2]

/-! ## Server: denial, relay, counting and the day boundary -/

/-- C2.  A request that is not loopback-exempt, with userId and sessionId
present, from a user whose record is dated today and whose count has reached
the daily limit, is answered 429 with a reply text containing "50", makes no
upstream call, and leaves both stores exactly as they were. -/
theorem denied_request_changes_nothing (s : ServerState) (req : Request) (today : String)
    (up : Upstream) (u sid : String) (r : QuotaRecord)
    (hv : validIds req = some (u, sid)) (hloc : isLocal req = false)
    (hr : s.userLimits u = some r) (hd : r.date = today) (hc : r.count ≥ DAILY_LIMIT) :
    (handleChat s req today up).response.status = 429 ∧
      (∃ before after : String,
        (handleChat s req today up).response.body =
          Body.reply (some (before ++ "50" ++ after))) ∧
      (handleChat s req today up).upstream = none ∧
      (handleChat s req today up).state = s := by
  have hfresh := refreshQuota_fresh s.userLimits u today r hr hd
  rcases handleChat_cases s req today up with ⟨h0, _⟩ | ⟨u1, sid1, record, h0, hrec, _, _, hcase⟩
  · rw [hv] at h0
    cases h0
  · rw [hv] at h0
    cases h0
    rw [hfresh, hr] at hrec
    cases hrec
    have hnot : ¬ passesQuota req r := by
      unfold passesQuota
      rw [hloc]
      rintro (h | h)
      · cases h
      · exact absurd hc (Nat.not_le_of_lt h)
    rcases hcase with ⟨_, _, hresp, hst, hup⟩ | ⟨hp, _⟩ | ⟨hp, _⟩ | ⟨_, hp, _⟩
    · rw [hresp, hst, hup, hfresh]
      exact ⟨rfl, ⟨"Daily limit is exhausted. You can ask a maximum of ",
        " questions per day.", by decide⟩, rfl, rfl⟩
    · exact absurd hp hnot
    · exact absurd hp hnot
    · exact absurd hp hnot

/-- Witness of C2: "Hello" as the 51st message of the day, after fifty
successful ones. -/
theorem denied_request_changes_nothing_witness :
    (handleChat (run emptyState (List.replicate 50 helloCall)) remoteReq "2024-05-01"
        okUp).response.status = 429 ∧
      (∃ before after : String,
        (handleChat (run emptyState (List.replicate 50 helloCall)) remoteReq "2024-05-01"
          okUp).response.body = Body.reply (some (before ++ "50" ++ after))) ∧
      (handleChat (run emptyState (List.replicate 50 helloCall)) remoteReq "2024-05-01"
        okUp).upstream = none ∧
      (handleChat (run emptyState (List.replicate 50 helloCall)) remoteReq "2024-05-01"
        okUp).state = run emptyState (List.replicate 50 helloCall) :=
  denied_request_changes_nothing (run emptyState (List.replicate 50 helloCall)) remoteReq
    "2024-05-01" okUp "u" "s" ⟨50, "2024-05-01"⟩ (by decide) (by decide)
    fifty_messages_counted rfl (by decide)

/-- C3 as stated fails: the upstream returns no error and a non-empty candidate
list, but the text of the first candidate cannot be read; reading it throws,
the response is 500 and the transcript ends with the user turn, without a model
turn. -/
theorem unreadable_candidate_gives_500 :
    blockedUp = Upstream.data none (some [Candidate.unreadable]) ∧
      validIds remoteReq = some ("u", "s") ∧
      (handleChat emptyState remoteReq "2024-05-01" blockedUp).response.status = 500 ∧
      (handleChat emptyState remoteReq "2024-05-01" blockedUp).state.userSessions "s" =
        some [{ role := Role.user, text := some "Hello" }] ∧
      (handleChat emptyState remoteReq "2024-05-01" blockedUp).state.userLimits "u" =
        some { count := 0, date := "2024-05-01" } := by
  decide

/-- A sessionId that names a property `userSessions` inherits from
`Object.prototype` stops the handler at the `push` of line 58: the response is
500, nothing is sent upstream and no transcript is stored. -/
theorem inherited_session_key_gives_500 :
    sessionSlot emptyState.userSessions "constructor" = Slot.inherited ∧
      (handleChat emptyState inheritedKeyReq "2024-05-01" okUp).response.status = 500 ∧
      (handleChat emptyState inheritedKeyReq "2024-05-01" okUp).upstream = none ∧
      (handleChat emptyState inheritedKeyReq "2024-05-01" okUp).state.userSessions
        "constructor" = none := by
  decide

/-- C3, amended.  For a request that passes validation and the limit check, with
prior transcript `t` for its sessionId (empty when `userSessions[sessionId]` is
undefined): the context `t` followed by the new user turn is sent upstream; if
the upstream returns no error and a candidate list whose first candidate
carries the readable text `reply`, the transcript afterwards is `t`, the user
turn, the model turn with that text, and the response is 200 with that text as
reply; if the upstream call fails (it throws, carries an error payload, has a
missing or empty candidate list, or a first candidate whose text cannot be
read), the transcript afterwards is `t` followed by the user turn only, and the
response is 500. -/
theorem relay_appends_turns (s : ServerState) (req : Request) (today : String)
    (up : Upstream) (u sid : String) (t : List Turn)
    (hv : validIds req = some (u, sid))
    (hq : isLocal req = true ∨ countOf (refreshQuota s.userLimits u today) u < DAILY_LIMIT)
    (ht : sessionSlot s.userSessions sid = Slot.own t ∨
      (sessionSlot s.userSessions sid = Slot.undefined ∧ t = [])) :
    (handleChat s req today up).upstream = some (t ++ [userTurn req]) ∧
      (∀ reply rest, up = Upstream.data none (some (Candidate.readable reply :: rest)) →
        (handleChat s req today up).state.userSessions sid =
            some (t ++ [userTurn req, modelTurn reply]) ∧
          (handleChat s req today up).response =
            { status := 200, body := Body.reply reply }) ∧
      (upstreamFailed up →
        (handleChat s req today up).state.userSessions sid = some (t ++ [userTurn req]) ∧
          (handleChat s req today up).response.status = 500) := by
  have htr : transcript s sid = t ∧ sessionSlot s.userSessions sid ≠ Slot.inherited := by
    rcases sessionSlot_transcript s sid with ⟨t0, hs, ht0⟩ | ⟨hs, _⟩ | ⟨hs, ht0, _⟩
    · rcases ht with h | ⟨h, _⟩
      · rw [hs] at h
        cases h
        exact ⟨ht0, by rw [hs]; exact fun h => by cases h⟩
      · rw [hs] at h
        cases h
    · rcases ht with h | ⟨h, _⟩ <;> rw [hs] at h <;> cases h
    · rcases ht with h | ⟨h, rfl⟩
      · rw [hs] at h
        cases h
      · exact ⟨ht0, by rw [hs]; exact fun h => by cases h⟩
  obtain ⟨htt, hne⟩ := htr
  rcases handleChat_cases s req today up with ⟨h0, _⟩ | ⟨u1, sid1, record, h0, hrec, _, _, hcase⟩
  · rw [hv] at h0
    cases h0
  · rw [hv] at h0
    cases h0
    have hpass : passesQuota req record := by
      unfold countOf at hq
      rw [hrec] at hq
      exact hq
    rcases hcase with ⟨hl, hge, _⟩ | ⟨_, hs, _⟩ | ⟨_, _, hfail, hresp, hst, hup⟩ |
      ⟨reply, _, _, hok, hresp, hst, hup⟩
    · rcases hpass with h | h
      · rw [hl] at h
        cases h
      · exact absurd hge (Nat.not_le_of_lt h)
    · exact absurd hs hne
    · rw [htt] at hst hup
      refine ⟨hup, ?_, ?_⟩
      · rintro reply rest rfl
        simp [upstreamReply] at hfail
      · intro _
        rw [hst]
        exact ⟨by simp only [Function.update_same], hresp⟩
    · rw [htt] at hst hup
      refine ⟨hup, ?_, ?_⟩
      · rintro reply1 rest rfl
        simp only [upstreamReply, Option.some.injEq] at hok
        subst hok
        rw [hst]
        exact ⟨by simp only [Function.update_same], hresp⟩
      · intro hf
        rw [← upstreamReply_eq_none_iff, hok] at hf
        cases hf

/-- Witness of the amended C3: the first request of a session, answered "Hi". -/
theorem relay_appends_turns_witness :
    (handleChat emptyState remoteReq "2024-05-01" okUp).upstream =
        some ([] ++ [userTurn remoteReq]) ∧
      (∀ reply rest, okUp = Upstream.data none (some (Candidate.readable reply :: rest)) →
        (handleChat emptyState remoteReq "2024-05-01" okUp).state.userSessions "s" =
            some ([] ++ [userTurn remoteReq, modelTurn reply]) ∧
          (handleChat emptyState remoteReq "2024-05-01" okUp).response =
            { status := 200, body := Body.reply reply }) ∧
      (upstreamFailed okUp →
        (handleChat emptyState remoteReq "2024-05-01" okUp).state.userSessions "s" =
            some ([] ++ [userTurn remoteReq]) ∧
          (handleChat emptyState remoteReq "2024-05-01" okUp).response.status = 500) :=
  relay_appends_turns emptyState remoteReq "2024-05-01" okUp "u" "s" []
    (by decide) (Or.inr (by decide)) (Or.inr ⟨by decide, rfl⟩)

/-- C4.  For a request that is not loopback-exempt and passes validation and the
limit check, with `c` the count after the day-reset step: if the upstream call
fails the count afterwards is `c` and the response is 500; after a 200 response
the count is `c + 1`; after any other response it is `c`; the records of all
other users are as before the request. -/
theorem count_incremented_only_on_success (s : ServerState) (req : Request) (today : String)
    (up : Upstream) (u sid : String)
    (hv : validIds req = some (u, sid)) (hloc : isLocal req = false)
    (hq : (!isLocal req &&
      decide (countOf (refreshQuota s.userLimits u today) u ≥ DAILY_LIMIT)) = false) :
    (upstreamFailed up →
        countOf (handleChat s req today up).state.userLimits u =
            countOf (refreshQuota s.userLimits u today) u ∧
          (handleChat s req today up).response.status = 500) ∧
      ((handleChat s req today up).response.status = 200 →
        countOf (handleChat s req today up).state.userLimits u =
          countOf (refreshQuota s.userLimits u today) u + 1) ∧
      ((handleChat s req today up).response.status ≠ 200 →
        countOf (handleChat s req today up).state.userLimits u =
          countOf (refreshQuota s.userLimits u today) u) ∧
      (∀ v, v ≠ u → (handleChat s req today up).state.userLimits v = s.userLimits v) := by
  obtain ⟨record, hrec, _, _, h200, hnot, hother⟩ := handleChat_count s req today up u sid hv
  rw [hloc] at hq
  simp only [Bool.not_false, Bool.true_and, decide_eq_false_iff_not, not_le] at hq
  have hfail : upstreamFailed up → (handleChat s req today up).response.status = 500 := by
    intro hf
    rw [← upstreamReply_eq_none_iff] at hf
    rcases handleChat_cases s req today up with ⟨h0, _⟩ | ⟨u1, sid1, r1, h0, hr1, _, _, hcase⟩
    · rw [hv] at h0
      cases h0
    · rw [hv] at h0
      cases h0
      rw [hrec] at hr1
      cases hr1
      rcases hcase with ⟨_, hge, _⟩ | ⟨_, _, hresp, _⟩ | ⟨_, _, _, hresp, _⟩ |
        ⟨reply, _, _, hok, _⟩
      · unfold countOf at hq
        rw [hrec] at hq
        exact absurd hge (Nat.not_le_of_lt hq)
      · rw [hresp]
      · exact hresp
      · rw [hf] at hok
        cases hok
  refine ⟨?_, ?_, ?_, hother⟩
  · intro hf
    have h500 := hfail hf
    refine ⟨?_, h500⟩
    rw [hnot (by rw [h500]; decide)]
  · intro h
    rw [countOf, (h200 h).2, countOf, hrec]
  · intro h
    rw [hnot h]

/-- Witness of C4: a first request of the day whose upstream call returns an
empty candidate list. -/
theorem count_incremented_only_on_success_witness :
    (upstreamFailed emptyUp →
        countOf (handleChat emptyState remoteReq "2024-05-01" emptyUp).state.userLimits "u" =
            countOf (refreshQuota emptyState.userLimits "u" "2024-05-01") "u" ∧
          (handleChat emptyState remoteReq "2024-05-01" emptyUp).response.status = 500) ∧
      ((handleChat emptyState remoteReq "2024-05-01" emptyUp).response.status = 200 →
        countOf (handleChat emptyState remoteReq "2024-05-01" emptyUp).state.userLimits "u" =
          countOf (refreshQuota emptyState.userLimits "u" "2024-05-01") "u" + 1) ∧
      ((handleChat emptyState remoteReq "2024-05-01" emptyUp).response.status ≠ 200 →
        countOf (handleChat emptyState remoteReq "2024-05-01" emptyUp).state.userLimits "u" =
          countOf (refreshQuota emptyState.userLimits "u" "2024-05-01") "u") ∧
      (∀ v, v ≠ "u" →
        (handleChat emptyState remoteReq "2024-05-01" emptyUp).state.userLimits v =
          emptyState.userLimits v) :=
  count_incremented_only_on_success emptyState remoteReq "2024-05-01" emptyUp "u" "s"
    (by decide) (by decide) (by decide)

/-- C5 as stated fails: a loopback request answered 200 leaves the count one
above the count after the day-reset step. -/
theorem exempt_request_consumes_quota :
    isLocal localReq = true ∧ validIds localReq = some ("u", "s") ∧
      (handleChat emptyState localReq "2024-05-01" okUp).response.status = 200 ∧
      countOf (refreshQuota emptyState.userLimits "u" "2024-05-01") "u" = 0 ∧
      countOf (handleChat emptyState localReq "2024-05-01" okUp).state.userLimits "u" = 1 := by
  decide

/-- C5, amended.  A loopback-exempt request with userId and sessionId present is
never answered 429, whatever the stored count; the count afterwards is the
count after the day-reset step when the response is not 200, and that count
plus one when the response is 200. -/
theorem exempt_request_never_denied (s : ServerState) (req : Request) (today : String)
    (up : Upstream) (u sid : String)
    (hv : validIds req = some (u, sid)) (hloc : isLocal req = true) :
    (handleChat s req today up).response.status ≠ 429 ∧
      ((handleChat s req today up).response.status = 200 →
        countOf (handleChat s req today up).state.userLimits u =
          countOf (refreshQuota s.userLimits u today) u + 1) ∧
      ((handleChat s req today up).response.status ≠ 200 →
        countOf (handleChat s req today up).state.userLimits u =
          countOf (refreshQuota s.userLimits u today) u) := by
  obtain ⟨record, hrec, _, h429, h200, hnot, _⟩ := handleChat_count s req today up u sid hv
  refine ⟨?_, ?_, ?_⟩
  · intro h
    have := (h429 h).1
    rw [hloc] at this
    cases this
  · intro h
    rw [countOf, (h200 h).2, countOf, hrec]
  · intro h
    rw [hnot h]

/-- Witness of the amended C5: a loopback request from a user whose count is
already 50. -/
theorem exempt_request_never_denied_witness :
    (handleChat exhaustedState localReq "2024-05-01" okUp).response.status ≠ 429 ∧
      ((handleChat exhaustedState localReq "2024-05-01" okUp).response.status = 200 →
        countOf (handleChat exhaustedState localReq "2024-05-01" okUp).state.userLimits "u" =
          countOf (refreshQuota exhaustedState.userLimits "u" "2024-05-01") "u" + 1) ∧
      ((handleChat exhaustedState localReq "2024-05-01" okUp).response.status ≠ 200 →
        countOf (handleChat exhaustedState localReq "2024-05-01" okUp).state.userLimits "u" =
          countOf (refreshQuota exhaustedState.userLimits "u" "2024-05-01") "u") :=
  exempt_request_never_denied exhaustedState localReq "2024-05-01" okUp "u" "s"
    (by decide) (by decide)

/-- C7 as stated fails: a request with both identifiers present and an empty
message text is not rejected; it is relayed, answered 200, and both stores
change. -/
theorem empty_message_is_relayed :
    truthy emptyTextReq.message = false ∧
      (handleChat emptyState emptyTextReq "2024-05-01" okUp).response.status = 200 ∧
      (handleChat emptyState emptyTextReq "2024-05-01" okUp).upstream =
        some [{ role := Role.user, text := some "" }] ∧
      (handleChat emptyState emptyTextReq "2024-05-01" okUp).state.userLimits "u" =
        some { count := 1, date := "2024-05-01" } ∧
      (handleChat emptyState emptyTextReq "2024-05-01" okUp).state.userSessions "s" =
        some [{ role := Role.user, text := some "" },
          { role := Role.model, text := some "Hi" }] := by
  decide

/-- C7, amended.  A request in which userId is missing or empty, or sessionId is
missing or empty, is answered with an error, without an upstream call and with
both stores unchanged: 400 with the error string of line 31 when `req.body` is
an object, 500 from the `catch` block when `req.body` is `undefined` and the
destructuring of line 28 throws. -/
theorem missing_identity_rejected (s : ServerState) (req : Request) (today : String)
    (up : Upstream) (h : truthy req.userId = false ∨ truthy req.sessionId = false) :
    (req.body ≠ none →
        (handleChat s req today up).response =
          { status := 400, body := Body.error (some "User ID and Session ID are required") }) ∧
      (req.body = none →
        (handleChat s req today up).response =
          { status := 500, body := Body.error (some "Something went wrong") }) ∧
      (handleChat s req today up).upstream = none ∧
      (handleChat s req today up).state = s := by
  have hv := (validIds_eq_none_iff req).mpr h
  rcases handleChat_cases s req today up with ⟨_, hresp, hst, hup⟩ | ⟨u, sid, _, h0, _⟩
  · refine ⟨?_, ?_, hup, hst⟩
    · intro hb
      rw [hresp]
      cases hbody : req.body with
      | none => exact absurd hbody hb
      | some b => rfl
    · intro hb
      rw [hresp, hb]
      rfl
  · rw [hv] at h0
    cases h0

/-- Witness of the amended C7: a request without userId, answered 400. -/
theorem missing_identity_rejected_witness :
    anonymousReq.body ≠ none ∧
      (handleChat exhaustedState anonymousReq "2024-05-01" okUp).response =
        { status := 400, body := Body.error (some "User ID and Session ID are required") } ∧
      (handleChat exhaustedState anonymousReq "2024-05-01" okUp).upstream = none ∧
      (handleChat exhaustedState anonymousReq "2024-05-01" okUp).state = exhaustedState :=
  have h := missing_identity_rejected exhaustedState anonymousReq "2024-05-01" okUp
    (Or.inl (by decide))
  ⟨by decide, h.1 (by decide), h.2.2.1, h.2.2.2⟩

/-- A request without a parsed body is answered 500 by the `catch` block, with
both stores unchanged and no upstream call. -/
theorem bodyless_request_gives_500 :
    truthy bodylessReq.userId = false ∧
      (handleChat exhaustedState bodylessReq "2024-05-01" okUp).response =
        { status := 500, body := Body.error (some "Something went wrong") } ∧
      (handleChat exhaustedState bodylessReq "2024-05-01" okUp).upstream = none ∧
      (handleChat exhaustedState bodylessReq "2024-05-01" okUp).state.userLimits "u" =
        some { count := 50, date := "2024-05-01" } := by
  decide

/-- C8.  For a request with userId and sessionId present from a user whose
stored record carries a date other than today, the day-reset step replaces the
record by count 0 and date today; the limit check reads that record, so the
request is not answered 429; the record afterwards has count 1 after a 200
response and count 0 after any other response. -/
theorem new_day_resets_count (s : ServerState) (req : Request) (today : String)
    (up : Upstream) (u sid : String) (r : QuotaRecord)
    (hv : validIds req = some (u, sid))
    (hr : s.userLimits u = some r) (hd : r.date ≠ today) :
    refreshQuota s.userLimits u today u = some { count := 0, date := today } ∧
      (handleChat s req today up).response.status ≠ 429 ∧
      ((handleChat s req today up).response.status = 200 →
        (handleChat s req today up).state.userLimits u =
          some { count := 1, date := today }) ∧
      ((handleChat s req today up).response.status ≠ 200 →
        (handleChat s req today up).state.userLimits u =
          some { count := 0, date := today }) := by
  have hzero : refreshQuota s.userLimits u today u = some { count := 0, date := today } := by
    rw [refreshQuota_stale s.userLimits u today r hr hd]
    simp only [Function.update_same]
  obtain ⟨record, hrec, _, h429, h200, hnot, _⟩ := handleChat_count s req today up u sid hv
  rw [hzero] at hrec
  cases hrec
  refine ⟨hzero, ?_, ?_, ?_⟩
  · intro h
    have := (h429 h).2
    exact absurd this (by simp [DAILY_LIMIT])
  · intro h
    exact (h200 h).2
  · intro h
    rw [hnot h, hzero]

/-- Witness of C8: user "u" had reached 50 on 2024-05-01 and asks again on
2024-05-02. -/
theorem new_day_resets_count_witness :
    refreshQuota exhaustedState.userLimits "u" "2024-05-02" "u" =
        some { count := 0, date := "2024-05-02" } ∧
      (handleChat exhaustedState remoteReq "2024-05-02" okUp).response.status ≠ 429 ∧
      ((handleChat exhaustedState remoteReq "2024-05-02" okUp).response.status = 200 →
        (handleChat exhaustedState remoteReq "2024-05-02" okUp).state.userLimits "u" =
          some { count := 1, date := "2024-05-02" }) ∧
      ((handleChat exhaustedState remoteReq "2024-05-02" okUp).response.status ≠ 200 →
        (handleChat exhaustedState remoteReq "2024-05-02" okUp).state.userLimits "u" =
          some { count := 0, date := "2024-05-02" }) :=
  new_day_resets_count exhaustedState remoteReq "2024-05-02" okUp "u" "s"
    ⟨50, "2024-05-01"⟩ (by decide) (by decide) (by decide)

/-- Witness of C1: two successful remote requests of user "u" on one day leave
the count 2. -/
theorem quota_never_exceeds_limit_witness :
    (run emptyState ([helloCall, helloCall].take 2)).userLimits "u" =
        some { count := 2, date := "2024-05-01" } ∧
      (2 ≤ DAILY_LIMIT ∧ DAILY_LIMIT = 50) :=
  ⟨by decide,
    quota_never_exceeds_limit [helloCall, helloCall] (by decide) 2 "u"
      { count := 2, date := "2024-05-01" } (by decide)⟩

/-! ## Server: the context sent upstream -/

/-- A request that reaches the upstream call sends the stored transcript of its
session followed by its own user turn. -/
theorem upstream_context (s : ServerState) (c : Call) (ctx : List Turn) (sid : String)
    (hsid : c.req.sessionId = some sid) (h : (step s c).upstream = some ctx) :
    ctx = transcript s sid ++ [userTurn c.req] := by
  unfold step at h
  rcases handleChat_cases s c.req c.today c.up with
    ⟨_, _, _, hup⟩ | ⟨u1, sid1, record, h0, _, _, _, hcase⟩
  · rw [hup] at h
    cases h
  · have hs := ((validIds_eq_some_iff _ _ _).mp h0).2.2.1
    rw [hsid] at hs
    cases hs
    rcases hcase with ⟨_, _, _, _, hup⟩ | ⟨_, _, _, _, hup⟩ | ⟨_, _, _, _, _, hup⟩ |
      ⟨reply, _, _, _, _, _, hup⟩
    · rw [hup] at h
      cases h
    · rw [hup] at h
      cases h
    · rw [hup] at h
      cases h
      rfl
    · rw [hup] at h
      cases h
      rfl

/-- A call answered 200 extends the transcript of its session by its user turn
and the model turn of its reply. -/
theorem step_ok_transcript (s : ServerState) (c : Call) (sid : String)
    (hsid : c.req.sessionId = some sid) (h : (step s c).response.status = 200) :
    transcript (step s c).state sid = transcript s sid ++ exchange c := by
  unfold step at h ⊢
  rcases handleChat_cases s c.req c.today c.up with
    ⟨_, hresp, _, _⟩ | ⟨u1, sid1, record, h0, _, _, _, hcase⟩
  · rw [hresp] at h
    split at h <;> exact absurd h (by decide)
  · have hs := ((validIds_eq_some_iff _ _ _).mp h0).2.2.1
    rw [hsid] at hs
    cases hs
    rcases hcase with ⟨_, _, hresp, _⟩ | ⟨_, _, hresp, _⟩ | ⟨_, _, _, hresp, _⟩ |
      ⟨reply, _, _, hok, _, hst, _⟩
    · rw [hresp] at h
      exact absurd h (by decide)
    · rw [hresp] at h
      exact absurd h (by decide)
    · rw [hresp] at h
      exact absurd h (by decide)
    · rw [hst]
      unfold exchange
      rw [hok]
      simp only [transcript, Function.update_same, Option.getD_some, Option.join,
        Option.some_bind, id]

theorem run_ok_transcript (calls : List Call) (s : ServerState) (sid : String)
    (hsid : ∀ c ∈ calls, c.req.sessionId = some sid) (hok : AllOk s calls) :
    transcript (run s calls) sid = transcript s sid ++ dialogue calls := by
  induction calls generalizing s with
  | nil => simp only [run, dialogue, List.append_nil]
  | cons c cs ih =>
      obtain ⟨h1, h2⟩ := hok
      have hc := hsid c (List.mem_cons_self c cs)
      simp only [run, dialogue]
      rw [ih (step s c).state (fun d hd => hsid d (List.mem_cons_of_mem c hd)) h2,
        step_ok_transcript s c sid hc h1, List.append_assoc]

theorem dialogue_length (calls : List Call) : (dialogue calls).length = 2 * calls.length := by
  induction calls with
  | nil => rfl
  | cons c cs ih =>
      simp only [dialogue, exchange, List.length_append, List.length_cons, List.length_nil, ih]
      omega

theorem dialogue_roles (calls : List Call) (t : Turn) (ht : t.role = Role.user) :
    (dialogue calls ++ [t]).map Turn.role = alternatingRoles calls.length := by
  induction calls with
  | nil => simp [dialogue, alternatingRoles, ht]
  | cons c cs ih =>
      simp only [dialogue, exchange, List.length_cons, alternatingRoles, List.cons_append,
        List.nil_append, List.map_cons, userTurn, modelTurn]
      rw [ih]

/-- C6.  In a run of sequential requests of one session, a request that reaches
the upstream call sends exactly the transcript the earlier requests left for
the session, followed by its own user turn.  When the session was fresh and
the `n` earlier requests were all answered 200, that context is their `n`
user and model turn pairs in order followed by the new user turn: `2 * n + 1`
turns with roles user, model, ..., user. -/
theorem context_is_whole_transcript (s0 : ServerState) (sid : String) (calls : List Call)
    (next : Call) (ctx : List Turn)
    (hfresh : s0.userSessions sid = none)
    (hsid : ∀ c ∈ calls, c.req.sessionId = some sid)
    (hnext : next.req.sessionId = some sid)
    (hreach : (step (run s0 calls) next).upstream = some ctx) :
    ctx = transcript (run s0 calls) sid ++ [userTurn next.req] ∧
      (AllOk s0 calls →
        ctx = dialogue calls ++ [userTurn next.req] ∧
          ctx.length = 2 * calls.length + 1 ∧
          ctx.map Turn.role = alternatingRoles calls.length) := by
  have h1 := upstream_context (run s0 calls) next ctx sid hnext hreach
  refine ⟨h1, ?_⟩
  intro hok
  have h2 := run_ok_transcript calls s0 sid hsid hok
  have h3 : transcript s0 sid = [] := by
    simp only [transcript, hfresh, Option.getD_none]
  rw [h3, List.nil_append] at h2
  rw [h2] at h1
  refine ⟨h1, ?_, ?_⟩
  · rw [h1, List.length_append, dialogue_length]
    rfl
  · rw [h1]
    exact dialogue_roles calls _ rfl

/-- Witness of C6: the calls "What is 2+2?" and "And 3+3?" in a fresh session;
the second call sends user, model, user in that order. -/
theorem context_is_whole_transcript_witness :
    (step (run emptyState [firstCall]) secondCall).upstream = some scenarioContext ∧
      AllOk emptyState [firstCall] ∧
      scenarioContext = transcript (run emptyState [firstCall]) "s" ++ [userTurn secondCall.req] ∧
      scenarioContext = dialogue [firstCall] ++ [userTurn secondCall.req] ∧
      scenarioContext.length = 3 ∧
      scenarioContext.map Turn.role = [Role.user, Role.model, Role.user] :=
  have h := context_is_whole_transcript emptyState "s" [firstCall] secondCall scenarioContext
    rfl (by decide) rfl (by decide)
  have hok : AllOk emptyState [firstCall] := ⟨by decide, trivial⟩
  ⟨by decide, hok, h.1, (h.2 hok).1, (h.2 hok).2.1, (h.2 hok).2.2⟩

/-! ## Client: the reveal -/

theorem splitSpace_ne_nil (cs : List Char) : splitSpace cs ≠ [] := by
  cases cs with
  | nil => simp [splitSpace]
  | cons c cs =>
      unfold splitSpace
      split
      · simp
      · split <;> simp

/-- Joining the pieces of `splitSpace` with single spaces gives the characters
back. -/
theorem splitSpace_join (cs : List Char) :
    ∃ w ws, splitSpace cs = w :: ws ∧
      w ++ (ws.map (fun v => Char.ofNat 32 :: v)).flatten = cs := by
  induction cs with
  | nil => exact ⟨[], [], rfl, rfl⟩
  | cons c cs ih =>
      obtain ⟨w, ws, hs, hj⟩ := ih
      unfold splitSpace
      by_cases hc : c = Char.ofNat 32
      · refine ⟨[], w :: ws, by simp only [hc, if_true, hs], ?_⟩
        simp only [List.map_cons, List.flatten_cons, List.nil_append, List.cons_append, hj, hc]
      · refine ⟨c :: w, ws, by simp only [hc, if_false, hs], ?_⟩
        simp only [List.cons_append, hj]

theorem intercalate_go_data (acc sep : String) (l : List String) :
    (String.intercalate.go acc sep l).data =
      acc.data ++ (l.map (fun v => sep.data ++ v.data)).flatten := by
  induction l generalizing acc with
  | nil => simp [String.intercalate.go]
  | cons a as ih =>
      simp only [String.intercalate.go, ih, String.data_append, List.map_cons, List.flatten_cons,
        List.append_assoc]

/-- Joining the words of a text with single spaces gives the text back. -/
theorem intercalate_splitWords (text : String) :
    String.intercalate " " (splitWords text) = text := by
  obtain ⟨w, ws, hs, hj⟩ := splitSpace_join text.data
  apply String.ext
  unfold splitWords
  rw [hs]
  simp only [List.map_cons, String.intercalate, intercalate_go_data, List.map_map]
  rw [← hj]
  rfl

theorem intercalate_go_append (acc sep w : String) (l : List String) :
    String.intercalate.go acc sep (l ++ [w]) = String.intercalate.go acc sep l ++ (sep ++ w) := by
  induction l generalizing acc with
  | nil => simp [String.intercalate.go, String.append_assoc]
  | cons a as ih =>
      rw [List.cons_append]
      simp only [String.intercalate.go]
      exact ih _

/-- Joining one more word appends it, after a separator unless it is the
first. -/
theorem intercalate_snoc (sep w : String) (l : List String) :
    String.intercalate sep (l ++ [w]) =
      String.intercalate sep l ++ ((if l.length = 0 then "" else sep) ++ w) := by
  cases l with
  | nil => simp [String.intercalate, String.intercalate.go]
  | cons a as =>
      simp only [List.cons_append, String.intercalate, intercalate_go_append,
        List.length_cons, Nat.succ_ne_zero, if_false]

theorem splitWords_length_pos (text : String) : 0 < (splitWords text).length := by
  unfold splitWords
  rw [List.length_map]
  exact List.length_pos.mpr (splitSpace_ne_nil text.data)

/-- No piece of `splitSpace` contains a space. -/
theorem splitSpace_no_space (cs : List Char) : ∀ w ∈ splitSpace cs, Char.ofNat 32 ∉ w := by
  induction cs with
  | nil =>
      intro w hw
      simp only [splitSpace, List.mem_singleton] at hw
      subst hw
      exact List.not_mem_nil _
  | cons c cs ih =>
      intro w hw
      unfold splitSpace at hw
      by_cases hc : c = Char.ofNat 32
      · simp only [hc, if_true, List.mem_cons] at hw
        rcases hw with rfl | hw
        · exact List.not_mem_nil _
        · exact ih w hw
      · simp only [hc, if_false] at hw
        obtain ⟨v, vs, hs, _⟩ := splitSpace_join cs
        rw [hs] at hw ih
        simp only [List.mem_cons] at hw
        rcases hw with rfl | hw
        · intro hmem
          rcases List.mem_cons.mp hmem with h | h
          · exact hc h.symm
          · exact ih v (List.mem_cons_self _ _) h
        · exact ih w (List.mem_cons_of_mem _ hw)

/-- No word of a reply contains a space. -/
theorem splitWords_no_space (text : String) :
    ∀ w ∈ splitWords text, Char.ofNat 32 ∉ w.data := by
  intro w hw
  unfold splitWords at hw
  obtain ⟨v, hv, rfl⟩ := List.mem_map.mp hw
  exact splitSpace_no_space text.data v hv

theorem runTicks_snoc (r : Reveal) (ls : List PageView) (p : PageView) :
    runTicks r (ls ++ [p]) = tick (runTicks r ls) p := by
  unfold runTicks
  rw [List.foldl_append]
  rfl

/-- A reveal whose interval is cleared stays as it is. -/
theorem runTicks_inactive (r : Reveal) (ls : List PageView) (h : r.intervalActive = false) :
    runTicks r ls = r := by
  induction ls with
  | nil => rfl
  | cons p ls ih =>
      have ht : tick r p = r := by
        unfold tick
        simp only [h, Bool.false_eq_true, if_false]
      unfold runTicks at ih ⊢
      rw [List.foldl_cons, ht]
      exact ih

/-- One tick of a registered interval, field by field. -/
theorem tick_active (r : Reveal) (p : PageView) (h : r.intervalActive = true) :
    (tick r p).words = r.words ∧
      (tick r p).currentWordIndex = r.currentWordIndex + 1 ∧
      (tick r p).hasOutgoing = r.hasOutgoing ∧
      (tick r p).intervalActive = decide (r.currentWordIndex + 1 ≠ r.words.length) ∧
      (tick r p).children =
        setInnerText (p.innerText r.children ++
          ((if r.currentWordIndex = 0 then "" else " ") ++
            r.words.getD r.currentWordIndex "undefined")) ∧
      (tick r p).scrollTop = targetScroll r.hasOutgoing p ∧
      (tick r p).isResponseGenerating =
        (r.isResponseGenerating && decide (r.currentWordIndex + 1 ≠ r.words.length)) := by
  unfold tick
  simp only [h, if_true]
  by_cases hend : r.currentWordIndex + 1 = r.words.length
  · simp [hend]
  · simp [hend]

/-- The reveal after `k` ticks, for `k` up to the number of words, apart from
the children of the display element: the index is `k`, the scroll position is
the clamp computed by the last tick, and the interval is registered and the
flag untouched exactly while `k` is below the number of words. -/
theorem runTicks_upto (text : String) (hasOutgoing : Bool) (scrollTop : Int) (flag : Bool)
    (ls : List PageView) (hk : ls.length ≤ (splitWords text).length) :
    (runTicks (showTypingEffect text [] hasOutgoing scrollTop flag) ls).words =
        splitWords text ∧
      (runTicks (showTypingEffect text [] hasOutgoing scrollTop flag) ls).currentWordIndex =
        ls.length ∧
      (runTicks (showTypingEffect text [] hasOutgoing scrollTop flag) ls).hasOutgoing =
        hasOutgoing ∧
      (runTicks (showTypingEffect text [] hasOutgoing scrollTop flag) ls).intervalActive =
        decide (ls.length < (splitWords text).length) ∧
      (runTicks (showTypingEffect text [] hasOutgoing scrollTop flag) ls).scrollTop =
        (ls.getLast?.map (targetScroll hasOutgoing)).getD scrollTop ∧
      (runTicks (showTypingEffect text [] hasOutgoing scrollTop flag) ls).isResponseGenerating =
        (flag && decide (ls.length < (splitWords text).length)) := by
  induction ls using List.reverseRecOn with
  | nil =>
      have hpos := splitWords_length_pos text
      simp [runTicks, showTypingEffect, hpos]
  | append_singleton ls p ih =>
      rw [List.length_append, List.length_singleton] at hk
      have hlt : ls.length < (splitWords text).length := hk
      obtain ⟨h1, h2, h3, h4, _, h6⟩ := ih (Nat.le_of_lt hlt)
      have hact : (runTicks (showTypingEffect text [] hasOutgoing scrollTop flag)
          ls).intervalActive = true := by
        rw [h4]
        exact decide_eq_true hlt
      obtain ⟨t1, t2, t3, t4, _, t6, t7⟩ :=
        tick_active (runTicks (showTypingEffect text [] hasOutgoing scrollTop flag) ls) p hact
      rw [runTicks_snoc, t1, t2, t3, t4, t6, t7, h1, h2, h3, h6]
      refine ⟨rfl, by simp, rfl, ?_, by simp, ?_⟩
      · by_cases hend : ls.length + 1 = (splitWords text).length
        · simp [hend]
        · have hlt2 : ls.length + 1 < (splitWords text).length := by omega
          simp [hend, hlt2]
      · by_cases hend : ls.length + 1 = (splitWords text).length
        · simp [hend]
        · have hlt2 : ls.length + 1 < (splitWords text).length := by omega
          simp [hend, hlt2, hlt]

/-- The tick after `k` ticks, `k` below the number of words, assigns what the
getter returns followed by the word of index `k`, after a space unless it is
the first word. -/
theorem runTicks_step (text : String) (hasOutgoing : Bool) (scrollTop : Int) (flag : Bool)
    (ls : List PageView) (p : PageView) (w : String)
    (hw : (splitWords text)[ls.length]? = some w) :
    (runTicks (showTypingEffect text [] hasOutgoing scrollTop flag) (ls ++ [p])).children =
      setInnerText
        (p.innerText (runTicks (showTypingEffect text [] hasOutgoing scrollTop flag) ls).children ++
          ((if ls.length = 0 then "" else " ") ++ w)) := by
  have hlt : ls.length < (splitWords text).length := by
    rcases Nat.lt_or_ge ls.length (splitWords text).length with h | h
    · exact h
    · rw [List.getElem?_eq_none h] at hw
      cases hw
  obtain ⟨h1, h2, _, h4, _, _⟩ :=
    runTicks_upto text hasOutgoing scrollTop flag ls (Nat.le_of_lt hlt)
  have hact : (runTicks (showTypingEffect text [] hasOutgoing scrollTop flag)
      ls).intervalActive = true := by
    rw [h4]
    exact decide_eq_true hlt
  obtain ⟨_, _, _, _, t5, _, _⟩ :=
    tick_active (runTicks (showTypingEffect text [] hasOutgoing scrollTop flag) ls) p hact
  rw [runTicks_snoc, t5, h1, h2, List.getD_eq_getElem?_getD, hw]
  rfl

/-- Joining one more word of the reply. -/
theorem shownWords_succ (text : String) (k : Nat) (w : String)
    (hw : (splitWords text)[k]? = some w) :
    shownWords text (k + 1) = shownWords text k ++ ((if k = 0 then "" else " ") ++ w) := by
  have hlt : k < (splitWords text).length := by
    rcases Nat.lt_or_ge k (splitWords text).length with h | h
    · exact h
    · rw [List.getElem?_eq_none h] at hw
      cases hw
  have hlen : ((splitWords text).take k).length = k := by
    rw [List.length_take]
    exact Nat.min_eq_left (Nat.le_of_lt hlt)
  unfold shownWords
  rw [List.take_succ, hw]
  simp only [Option.toList]
  rw [intercalate_snoc, hlen]

/-- When every getter read during the reveal gives the partial texts back, the
children after `k` ticks are what assigning the first `k` words builds. -/
theorem runTicks_children (text : String) (hasOutgoing : Bool) (scrollTop : Int) (flag : Bool)
    (ls : List PageView) (hk : ls.length ≤ (splitWords text).length)
    (hread : ∀ p ∈ ls, ReadsBack p.innerText text) :
    (runTicks (showTypingEffect text [] hasOutgoing scrollTop flag) ls).children =
      setInnerText (shownWords text ls.length) := by
  induction ls using List.reverseRecOn with
  | nil => rfl
  | append_singleton ls p ih =>
      rw [List.length_append, List.length_singleton] at hk
      have hlt : ls.length < (splitWords text).length := hk
      have hw : (splitWords text)[ls.length]? = some ((splitWords text)[ls.length]) :=
        List.getElem?_eq_getElem hlt
      have hprev := ih (Nat.le_of_lt hlt) (fun q hq => hread q (List.mem_append_left _ hq))
      have hp := hread p (List.mem_append_right _ (List.mem_singleton_self p)) ls.length
        (Nat.le_of_lt hlt)
      rw [runTicks_step text hasOutgoing scrollTop flag ls p _ hw, hprev, hp,
        List.length_append, List.length_singleton, shownWords_succ text ls.length _ hw]

/-- The reveal after at least as many ticks as there are words is the reveal
after exactly that many ticks: the cleared interval does not run again. -/
theorem runTicks_done (text : String) (hasOutgoing : Bool) (scrollTop : Int) (flag : Bool)
    (ls : List PageView) (hk : (splitWords text).length ≤ ls.length) :
    runTicks (showTypingEffect text [] hasOutgoing scrollTop flag) ls =
      runTicks (showTypingEffect text [] hasOutgoing scrollTop flag)
        (ls.take (splitWords text).length) := by
  have hlen : (ls.take (splitWords text).length).length = (splitWords text).length := by
    rw [List.length_take]
    exact Nat.min_eq_left hk
  have hdone : (runTicks (showTypingEffect text [] hasOutgoing scrollTop flag)
      (ls.take (splitWords text).length)).intervalActive = false := by
    rw [(runTicks_upto text hasOutgoing scrollTop flag _ (Nat.le_of_eq hlen)).2.2.2.1, hlen]
    simp
  conv_lhs => rw [← List.take_append_drop (splitWords text).length ls]
  unfold runTicks at hdone ⊢
  rw [List.foldl_append]
  exact runTicks_inactive _ _ hdone

theorem flushText_chars (cur : List Char) : ((flushText cur).map nodeChars).flatten = cur := by
  unfold flushText
  cases cur with
  | nil => rfl
  | cons c cs => simp [nodeChars]

/-- Read with its white space preserved, the fragment built from characters
without a carriage return gives the characters back. -/
theorem renderedTextFragment_chars (cs cur : List Char) (h : Char.ofNat 13 ∉ cs) :
    ((renderedTextFragment false cur cs).map nodeChars).flatten = cur ++ cs := by
  induction cs generalizing cur with
  | nil => simp [renderedTextFragment, flushText_chars]
  | cons c cs ih =>
      have hc : c ≠ Char.ofNat 13 := fun e => h (e ▸ List.mem_cons_self _ _)
      have hcs : Char.ofNat 13 ∉ cs := fun hm => h (List.mem_cons_of_mem _ hm)
      unfold renderedTextFragment
      by_cases hlf : c = Char.ofNat 10
      · simp [hlf, flushText_chars, ih [] hcs, nodeChars]
      · simp [hlf, hc, ih _ hcs]

/-- An element rendered with its white space preserved gives back every
assigned text that has no carriage return. -/
theorem renderedText_setInnerText (s : String) (h : Char.ofNat 13 ∉ s.data) :
    renderedText (setInnerText s) = s := by
  unfold renderedText setInnerText
  rw [renderedTextFragment_chars _ _ h]
  rfl

theorem splitSpace_subset (cs : List Char) : ∀ w ∈ splitSpace cs, ∀ c ∈ w, c ∈ cs := by
  induction cs with
  | nil =>
      intro w hw c hc
      simp only [splitSpace, List.mem_singleton] at hw
      subst hw
      exact hc
  | cons d cs ih =>
      intro w hw c hc
      unfold splitSpace at hw
      by_cases hd : d = Char.ofNat 32
      · simp only [hd, if_true, List.mem_cons] at hw
        rcases hw with rfl | hw
        · exact absurd hc (List.not_mem_nil _)
        · exact List.mem_cons_of_mem _ (ih w hw c hc)
      · simp only [hd, if_false] at hw
        obtain ⟨v, vs, hs, _⟩ := splitSpace_join cs
        rw [hs] at hw ih
        simp only [List.mem_cons] at hw
        rcases hw with rfl | hw
        · rcases List.mem_cons.mp hc with h | h
          · rw [h]
            exact List.mem_cons_self _ _
          · exact List.mem_cons_of_mem _ (ih v (List.mem_cons_self _ _) c h)
        · exact List.mem_cons_of_mem _ (ih w (List.mem_cons_of_mem _ hw) c hc)

theorem intercalate_chars (sep : String) (l : List String) (c : Char)
    (hc : c ∈ (String.intercalate sep l).data) : c ∈ sep.data ∨ ∃ w ∈ l, c ∈ w.data := by
  cases l with
  | nil => exact absurd hc (List.not_mem_nil _)
  | cons a as =>
      simp only [String.intercalate, intercalate_go_data, List.mem_append, List.mem_flatten,
        List.mem_map] at hc
      rcases hc with h | ⟨x, ⟨w, hw, rfl⟩, hx⟩
      · exact Or.inr ⟨a, List.mem_cons_self _ _, h⟩
      · rcases List.mem_append.mp hx with h | h
        · exact Or.inl h
        · exact Or.inr ⟨w, List.mem_cons_of_mem _ hw, h⟩

/-- An element rendered with its white space preserved gives back every partial
text of a reply that has no carriage return. -/
theorem renderedText_readsBack (text : String) (h : Char.ofNat 13 ∉ text.data) :
    ReadsBack renderedText text := by
  intro k _
  apply renderedText_setInnerText
  intro hmem
  unfold shownWords at hmem
  rcases intercalate_chars " " _ _ hmem with hsp | ⟨w, hw, hcw⟩
  · exact absurd hsp (by decide)
  · have hw2 : w ∈ splitWords text := List.mem_of_mem_take hw
    unfold splitWords at hw2
    obtain ⟨v, hv, rfl⟩ := List.mem_map.mp hw2
    exact h (splitSpace_subset text.data v hv _ hcw)

/-- C9 as stated fails: for the reply "a", CR, LF, "b c" the two ticks end the
reveal, but the setter has turned CR LF into one `br` element; the text the
getter returns is "a", LF, "b c" when the element is rendered and "ab c" when it
is not, and in neither case the reply.  Assigning the reply in one piece gives
the same children as assigning it with LF in place of CR LF. -/
theorem carriage_return_not_shown :
    splitWords "a\r\nb c" = ["a\r\nb", "c"] ∧
      (runTicks (showTypingEffect "a\r\nb c" [] true 0 true)
        [renderedView, renderedView]).intervalActive = false ∧
      (runTicks (showTypingEffect "a\r\nb c" [] true 0 true)
        [renderedView, renderedView]).children = [Node.text "a", Node.br, Node.text "b c"] ∧
      renderedText (runTicks (showTypingEffect "a\r\nb c" [] true 0 true)
        [renderedView, renderedView]).children = "a\nb c" ∧
      renderedText (runTicks (showTypingEffect "a\r\nb c" [] true 0 true)
        [renderedView, renderedView]).children ≠ "a\r\nb c" ∧
      textContent (runTicks (showTypingEffect "a\r\nb c" [] true 0 true)
        [hiddenView, hiddenView]).children = "ab c" ∧
      setInnerText "a\r\nb c" = setInnerText "a\nb c" := by
  decide

/-- Whatever the getter, the one-word replies "a", CR, LF, "b" and "a", LF, "b"
leave the same children behind, so the text read afterwards cannot be the
reply in both cases. -/
theorem no_getter_shows_carriage_return (p : PageView) (hempty : p.innerText [] = "") :
    ¬ (p.innerText (runTicks (showTypingEffect "a\r\nb" [] true 0 true) [p]).children =
          "a\r\nb" ∧
        p.innerText (runTicks (showTypingEffect "a\nb" [] true 0 true) [p]).children =
          "a\nb") := by
  have h1 := runTicks_step "a\r\nb" true 0 true [] p "a\r\nb" (by decide)
  have h2 := runTicks_step "a\nb" true 0 true [] p "a\nb" (by decide)
  have e1 : (runTicks (showTypingEffect "a\r\nb" [] true 0 true) []).children = [] := rfl
  have e2 : (runTicks (showTypingEffect "a\nb" [] true 0 true) []).children = [] := rfl
  rw [List.nil_append, e1, hempty] at h1
  rw [List.nil_append, e2, hempty] at h2
  have hsame : setInnerText ("" ++ ((if ([] : List PageView).length = 0 then "" else " ") ++
      "a\r\nb")) = setInnerText ("" ++ ((if ([] : List PageView).length = 0 then "" else " ") ++
      "a\nb")) := by decide
  rintro ⟨ha, hb⟩
  rw [h1, hsame] at ha
  rw [h2, ha] at hb
  exact absurd hb (by decide)

/-- C9, amended.  For every reply string shown in an initially empty display
element while the flag is set, with `n` the number of words `text.split(' ')`
gives: `n` is at least one, no word contains a space, and the words joined by
single spaces are the reply; the tick after `k` ticks, `k` below `n`, assigns
to `innerText` what it reads from it followed by the word of index `k`, after
a space unless `k` is zero; after `k` ticks, `k` up to `n`, the index is `k`;
before the `n`-th tick the interval is registered and the flag is still set;
from the `n`-th tick on the interval and the flag are cleared.  When the
`innerText` getter gives back each partial text as it was assigned, at every
tick and when the display is read, the text read after `k` ticks, `k` up to
`n`, is the first `k` words joined by single spaces, from the `n`-th tick on it
is the reply itself, and for the empty reply it is empty after any number of
ticks.  For the empty reply `n` is one. -/
theorem typing_effect_reveals_reply (read : List Node → String) (text : String)
    (hasOutgoing : Bool) (scrollTop : Int) (ls : List PageView) :
    (0 < (splitWords text).length ∧
        (∀ w ∈ splitWords text, Char.ofNat 32 ∉ w.data) ∧
        String.intercalate " " (splitWords text) = text) ∧
      (∀ p w, (splitWords text)[ls.length]? = some w →
        (runTicks (showTypingEffect text [] hasOutgoing scrollTop true) (ls ++ [p])).children =
          setInnerText
            (p.innerText (runTicks (showTypingEffect text [] hasOutgoing scrollTop true)
                ls).children ++
              ((if ls.length = 0 then "" else " ") ++ w))) ∧
      (ls.length ≤ (splitWords text).length →
        (runTicks (showTypingEffect text [] hasOutgoing scrollTop true) ls).currentWordIndex =
          ls.length) ∧
      (ls.length < (splitWords text).length →
        (runTicks (showTypingEffect text [] hasOutgoing scrollTop true) ls).intervalActive =
            true ∧
          (runTicks (showTypingEffect text [] hasOutgoing scrollTop true)
            ls).isResponseGenerating = true) ∧
      ((splitWords text).length ≤ ls.length →
        (runTicks (showTypingEffect text [] hasOutgoing scrollTop true) ls).intervalActive =
            false ∧
          (runTicks (showTypingEffect text [] hasOutgoing scrollTop true)
            ls).isResponseGenerating = false ∧
          (runTicks (showTypingEffect text [] hasOutgoing scrollTop true) ls).currentWordIndex =
            (splitWords text).length) ∧
      ((∀ p ∈ ls, ReadsBack p.innerText text) → ReadsBack read text →
        (ls.length ≤ (splitWords text).length →
            read (runTicks (showTypingEffect text [] hasOutgoing scrollTop true) ls).children =
              String.intercalate " " ((splitWords text).take ls.length)) ∧
          ((splitWords text).length ≤ ls.length →
            read (runTicks (showTypingEffect text [] hasOutgoing scrollTop true) ls).children =
              text) ∧
          (text = "" →
            read (runTicks (showTypingEffect text [] hasOutgoing scrollTop true) ls).children =
              "")) ∧
      (text = "" → (splitWords text).length = 1) := by
  have hdone : (splitWords text).length ≤ ls.length →
      (runTicks (showTypingEffect text [] hasOutgoing scrollTop true) ls).intervalActive =
          false ∧
        (runTicks (showTypingEffect text [] hasOutgoing scrollTop true)
          ls).isResponseGenerating = false ∧
        (runTicks (showTypingEffect text [] hasOutgoing scrollTop true) ls).currentWordIndex =
          (splitWords text).length := by
    intro h
    have hlen : (ls.take (splitWords text).length).length = (splitWords text).length := by
      rw [List.length_take]
      exact Nat.min_eq_left h
    obtain ⟨_, h2, _, h4, _, h6⟩ :=
      runTicks_upto text hasOutgoing scrollTop true _ (Nat.le_of_eq hlen)
    rw [runTicks_done text hasOutgoing scrollTop true ls h, h2, h4, h6, hlen]
    simp
  have hshown : (∀ p ∈ ls, ReadsBack p.innerText text) → ReadsBack read text →
      ls.length ≤ (splitWords text).length →
      read (runTicks (showTypingEffect text [] hasOutgoing scrollTop true) ls).children =
        String.intercalate " " ((splitWords text).take ls.length) := by
    intro hread hobs h
    rw [runTicks_children text hasOutgoing scrollTop true ls h hread]
    exact hobs ls.length h
  have hfinal : (∀ p ∈ ls, ReadsBack p.innerText text) → ReadsBack read text →
      (splitWords text).length ≤ ls.length →
      read (runTicks (showTypingEffect text [] hasOutgoing scrollTop true) ls).children =
        text := by
    intro hread hobs h
    have hlen : (ls.take (splitWords text).length).length = (splitWords text).length := by
      rw [List.length_take]
      exact Nat.min_eq_left h
    rw [runTicks_done text hasOutgoing scrollTop true ls h,
      runTicks_children text hasOutgoing scrollTop true _ (Nat.le_of_eq hlen)
        (fun p hp => hread p (List.mem_of_mem_take hp)),
      hlen, hobs _ (Nat.le_refl _)]
    unfold shownWords
    rw [List.take_length]
    exact intercalate_splitWords text
  refine ⟨⟨splitWords_length_pos text, splitWords_no_space text, intercalate_splitWords text⟩,
    ?_, ?_, ?_, hdone, ?_, ?_⟩
  · intro p w hw
    exact runTicks_step text hasOutgoing scrollTop true ls p w hw
  · intro h
    exact (runTicks_upto text hasOutgoing scrollTop true ls h).2.1
  · intro h
    obtain ⟨_, _, _, h4, _, h6⟩ :=
      runTicks_upto text hasOutgoing scrollTop true ls (Nat.le_of_lt h)
    rw [h4, h6]
    simp [h]
  · intro hread hobs
    refine ⟨hshown hread hobs, hfinal hread hobs, ?_⟩
    intro hempty
    have hone : (splitWords text).length = 1 := by
      rw [hempty]
      decide
    cases hl : ls.length with
    | zero =>
        have h0 := hshown hread hobs (by rw [hl]; exact Nat.zero_le _)
        rw [h0, hl]
        rfl
    | succ k =>
        have h1 := hfinal hread hobs (by rw [hone, hl]; exact Nat.succ_le_succ (Nat.zero_le k))
        rw [h1, hempty]
  · rintro rfl
    decide

/-- Witness of the amended C9: the reply "Hello world" in a display element
rendered with its white space preserved is shown as "Hello" after one tick and
as "Hello world" after two. -/
theorem typing_effect_reveals_reply_witness :
    ReadsBack renderedText "Hello world" ∧
      splitWords "Hello world" = ["Hello", "world"] ∧
      renderedText (runTicks (showTypingEffect "Hello world" [] true 0 true)
        [renderedView]).children = "Hello" ∧
      renderedText (runTicks (showTypingEffect "Hello world" [] true 0 true)
        [renderedView, renderedView]).children = "Hello world" ∧
      (runTicks (showTypingEffect "Hello world" [] true 0 true)
        [renderedView, renderedView]).isResponseGenerating = false :=
  have hrb : ReadsBack renderedText "Hello world" := by
    unfold ReadsBack
    decide
  have hall : ∀ ls : List PageView, (∀ p ∈ ls, p = renderedView) →
      ∀ p ∈ ls, ReadsBack p.innerText "Hello world" := fun ls h p hp => by
    rw [h p hp]
    exact hrb
  have h1 := typing_effect_reveals_reply renderedText "Hello world" true 0 [renderedView]
  have h2 := typing_effect_reveals_reply renderedText "Hello world" true 0
    [renderedView, renderedView]
  ⟨hrb, by decide,
    (h1.2.2.2.2.2.1 (hall _ (by simp)) hrb).1 (by decide),
    (h2.2.2.2.2.2.1 (hall _ (by simp)) hrb).2.1 (by decide),
    (h2.2.2.2.2.1 (by decide)).2.1⟩

/-! ## Client: the single-flight flag -/

/-- While the flag is set a submission changes nothing but the global
`userMessage`, which line 153 assigns before the guard of line 154. -/
theorem submission_while_generating (c : Client) (h : c.isResponseGenerating = true) :
    handleOutgoingChat c = { c with userMessage := some (trim c.inputValue) } := by
  unfold handleOutgoingChat
  simp only [h, Bool.or_true, if_true]

/-- Neither a submission nor the loading timer clears the flag; the `catch`
block of the reply fetch does. -/
theorem flag_stays_set (c : Client) (h : c.isResponseGenerating = true) (message : String) :
    (handleOutgoingChat c).isResponseGenerating = true ∧
      (showLoadingAnimation c).isResponseGenerating = true ∧
      (fetchFailed c message).isResponseGenerating = false := by
  rw [submission_while_generating c h]
  exact ⟨h, h, rfl⟩

/-- C10 fails on the code.  The question "What is 2+2?" is submitted, and
within the 500 ms before the request is sent the user types "Never mind" and
submits again.  The second submission is rejected (flag, chat list, input box
and timers stay as they were) but it has replaced `userMessage`, and the
request of the first submission is sent with the text "Never mind".  A second
submission with the box left empty makes the request carry the empty text. -/
theorem rejected_submission_overwrites_message :
    (handleOutgoingChat typedClient).isResponseGenerating = true ∧
      (handleOutgoingChat typedClient).userMessage = some "What is 2+2?" ∧
      (handleOutgoingChat (onInput (handleOutgoingChat typedClient) "Never mind")).userMessage =
        some "Never mind" ∧
      handleOutgoingChat (onInput (handleOutgoingChat typedClient) "Never mind") ≠
        onInput (handleOutgoingChat typedClient) "Never mind" ∧
      (handleOutgoingChat (onInput (handleOutgoingChat typedClient) "Never mind")).chatList =
        [{ outgoing := true, text := "What is 2+2?", loading := false, error := false }] ∧
      (showLoadingAnimation
        (handleOutgoingChat (onInput (handleOutgoingChat typedClient) "Never mind"))).sent =
        [some "Never mind"] ∧
      (showLoadingAnimation (handleOutgoingChat (handleOutgoingChat typedClient))).sent =
        [some ""] := by
  decide

end ChatRelay
